import Mathlib

/-!
Shallow embedding of the threshold trading simulator and parameter grid
search of `src/dashboard/app.py` (functions `run_threshold_simulation`,
`build_float_grid`, `build_int_grid`, `run_grid_search`).

Modelling conventions:
* Python floats are modelled as rationals (ℚ); arithmetic on them is exact.
* Timestamps are modelled as rationals measured in days, so Python's
  `(dt - prev_dt).total_seconds() / 86400.0` becomes plain subtraction.
* Python float exponentiation `a ** b` (used only for the interest carry)
  is passed in as an explicit function parameter `rpow`; no claim below
  depends on its values.
* Python float division raises `ZeroDivisionError` on a zero divisor, so
  every division whose divisor is a runtime value goes through `pdiv` and
  the whole computation lives in `Except String`.
* A price panel row maps tickers to present (non-NaN) prices; a missing
  or NaN entry is simply absent from the association list, matching the
  `pd.isna(px)` skip.
* Lookback windows are modelled as ℕ, matching the documented
  precondition `window ≥ 1` (and also covering the degenerate window 0).
-/

/-- Python's `max(a, b)` on floats, written with an explicit `if` so that
terms reduce by evaluation. -/
def pymax (a b : ℚ) : ℚ := if a ≤ b then b else a

/-- Python's `abs(x)` on floats. -/
def pyabs (x : ℚ) : ℚ := if x < 0 then -x else x

/-- Python's `min(a, b)` on floats. -/
def pymin (a b : ℚ) : ℚ := if a ≤ b then a else b

/-- Python float division: raises `ZeroDivisionError` when the divisor is 0. -/
def pdiv (a b : ℚ) : Except String ℚ :=
  if b = 0 then .error "ZeroDivisionError" else .ok (a / b)

/-- The full lever set of one simulator run (the keyword arguments of
`run_threshold_simulation`). -/
structure SimConfig where
  buy_unit_by_ticker : List (String × ℚ)
  starting_cash : ℚ
  annual_cash_yield_pct : ℚ
  annual_borrow_rate_pct : ℚ
  allow_leverage : Bool
  buy_threshold_pct : ℚ
  buy_window_days : ℕ
  sell_threshold_pct : ℚ
  sell_window_days : ℕ
  sell_mode : String
  fee_bps : ℚ
  allow_reentry : Bool
deriving DecidableEq

/-- `tickers = list(buy_unit_by_ticker.keys())`. -/
def SimConfig.tickers (cfg : SimConfig) : List String :=
  cfg.buy_unit_by_ticker.map Prod.fst

/-- `fee_buy = 1.0 + (fee_bps / 10000.0)`. -/
def fee_buy (cfg : SimConfig) : ℚ := 1 + cfg.fee_bps / 10000

/-- `fee_sell = 1.0 - (fee_bps / 10000.0)`. -/
def fee_sell (cfg : SimConfig) : ℚ := 1 - cfg.fee_bps / 10000

/-- `annual_cash_yield = max(0.0, annual_cash_yield_pct) / 100.0`. -/
def annual_cash_yield (cfg : SimConfig) : ℚ := pymax 0 cfg.annual_cash_yield_pct / 100

/-- `annual_borrow_rate = max(0.0, annual_borrow_rate_pct) / 100.0`. -/
def annual_borrow_rate (cfg : SimConfig) : ℚ := pymax 0 cfg.annual_borrow_rate_pct / 100

/-- The per-ticker mutable state dictionary of `run_threshold_simulation`. -/
structure InstrumentState where
  shares : ℚ
  last_price : Option ℚ
  buy_count : ℕ
  sell_count : ℕ
  history : List ℚ
  notional_bought : ℚ
  proceeds_sold : ℚ
deriving DecidableEq

/-- The zeroed state each ticker starts a run with. -/
def initInstrument : InstrumentState :=
  { shares := 0, last_price := none, buy_count := 0, sell_count := 0,
    history := [], notional_bought := 0, proceeds_sold := 0 }

/-- One appended trade record.  BUY rows carry `order_usd`, SELL rows carry
`proceeds_net`; the other field is absent (NaN in the DataFrame). -/
structure Trade where
  dt : ℚ
  ticker : String
  action : String
  price : ℚ
  shares : ℚ
  order_usd : Option ℚ
  proceeds_net : Option ℚ
  cash_before : ℚ
  cash_after : ℚ
  shares_after : ℚ
  signal_return_pct : Option ℚ
  signal_window_days : ℕ
deriving DecidableEq

/-- One equity-curve row, appended once per panel timestamp. -/
structure EquitySnapshot where
  dt : ℚ
  cash_balance : ℚ
  portfolio_value : ℚ
  deployed_value : ℚ
  total_wealth : ℚ
deriving DecidableEq

/-- The loop state of `run_threshold_simulation`: the `cash_balance`
nonlocal, the per-ticker `state` dict (in ticker insertion order), the
`trades` and `equity_curve` accumulators, and the `prev_dt` cursor. -/
structure SimState where
  cash_balance : ℚ
  instruments : List (String × InstrumentState)
  trades : List Trade
  equity_curve : List EquitySnapshot
  prev_dt : Option ℚ
deriving DecidableEq

/-- `state[ticker]`.  The dictionary is initialised with every configured
ticker, so the default is never reached on configured tickers. -/
def getInst (s : SimState) (t : String) : InstrumentState :=
  (s.instruments.lookup t).getD initInstrument

/-- `state[ticker] = i` (in-place update of the state dict). -/
def setInst (s : SimState) (t : String) (i : InstrumentState) : SimState :=
  { s with instruments := s.instruments.map (fun p => if p.1 = t then (t, i) else p) }

/-- `float(buy_unit_by_ticker[ticker])`; configured tickers are exactly the
dictionary keys, so the default is never reached. -/
def unit_usd_of (cfg : SimConfig) (t : String) : ℚ :=
  (cfg.buy_unit_by_ticker.lookup t).getD 0

/-- The equity snapshot's invested value: `Σ shares × last_price`, with a
ticker that has never been observed contributing last price `0.0`. -/
def invested_value (insts : List (String × InstrumentState)) : ℚ :=
  (insts.map (fun p => p.2.shares * p.2.last_price.getD 0)).sum

/-- The trailing-return computation:
`((hist[-1] / hist[-1 - w]) - 1.0) * 100.0` when `len(hist) > w`, else the
signal stays `None`.  A zero price at the lookback index raises
`ZeroDivisionError`, exactly as Python float division does. -/
def trailing_return (hist : List ℚ) (w : ℕ) : Except String (Option ℚ) :=
  if w < hist.length then do
    let q ← pdiv (hist.getD (hist.length - 1) 0) (hist.getD (hist.length - 1 - w) 0)
    .ok (some ((q - 1) * 100))
  else .ok none

/-- The `buy_one_unit` closure: deduct one unit of cash and add
`(unit_usd / fee_buy) / price` shares, recording a BUY trade; a
non-positive unit, or insufficient cash without leverage, is a silent
no-op. -/
def buy_one_unit (cfg : SimConfig) (ticker : String) (dt price : ℚ)
    (signal_ret : Option ℚ) (signal_window : ℕ) (s : SimState) :
    Except String SimState :=
  let stt := getInst s ticker
  let unit_usd := unit_usd_of cfg ticker
  if unit_usd ≤ 0 then .ok s
  else if !cfg.allow_leverage && decide (s.cash_balance < unit_usd) then .ok s
  else
    let cash_before := s.cash_balance
    let cash_after := cash_before - unit_usd
    match pdiv unit_usd (fee_buy cfg) with
    | .error e => .error e
    | .ok q =>
    match pdiv q price with
    | .error e => .error e
    | .ok shares_bought =>
    let stt2 := { stt with
      shares := stt.shares + shares_bought,
      buy_count := stt.buy_count + 1,
      notional_bought := stt.notional_bought + unit_usd }
    let tr : Trade :=
      { dt := dt, ticker := ticker, action := "BUY", price := price,
        shares := shares_bought, order_usd := some unit_usd, proceeds_net := none,
        cash_before := cash_before, cash_after := cash_after,
        shares_after := stt2.shares, signal_return_pct := signal_ret,
        signal_window_days := signal_window }
    .ok (setInst { s with cash_balance := cash_after, trades := s.trades ++ [tr] }
          ticker stt2)

/-- The body of `for ticker in tickers:` inside the timestamp loop: skip a
missing price, extend the observation history, compute both trailing
returns, then either enter (zero-share branch), liquidate on a sell
signal, pyramid on a persisting buy signal, or do nothing. -/
def process_ticker (cfg : SimConfig) (dt : ℚ) (row : List (String × ℚ))
    (s : SimState) (ticker : String) : Except String SimState :=
  match row.lookup ticker with
  | none => .ok s
  | some price =>
    let stt0 := getInst s ticker
    let hist := stt0.history ++ [price]
    let stt1 := { stt0 with last_price := some price, history := hist }
    let s1 := setInst s ticker stt1
    match trailing_return hist cfg.buy_window_days with
    | .error e => .error e
    | .ok buy_ret =>
    match trailing_return hist cfg.sell_window_days with
    | .error e => .error e
    | .ok sell_ret =>
    let buy_signal := match buy_ret with
      | some r => decide (cfg.buy_threshold_pct ≤ r)
      | none => false
    if stt1.shares ≤ 0 then
      let can_reenter := cfg.allow_reentry || stt1.buy_count == 0
      if can_reenter && buy_signal then
        buy_one_unit cfg ticker dt price buy_ret cfg.buy_window_days s1
      else .ok s1
    else
      let sell_signal := match sell_ret with
        | some r =>
          if cfg.sell_mode = "Sell on drop" then decide (r ≤ -pyabs cfg.sell_threshold_pct)
          else decide (pyabs cfg.sell_threshold_pct ≤ r)
        | none => false
      if sell_signal then
        let shares_before := stt1.shares
        let cash_before := s1.cash_balance
        let net := shares_before * price * fee_sell cfg
        let cash_after := cash_before + net
        let stt2 :=
          { stt1 with
            shares := 0, sell_count := stt1.sell_count + 1,
            proceeds_sold := stt1.proceeds_sold + net }
        let tr : Trade :=
          { dt := dt, ticker := ticker, action := "SELL",
            price := price, shares := shares_before, order_usd := none,
            proceeds_net := some net, cash_before := cash_before,
            cash_after := cash_after, shares_after := 0,
            signal_return_pct := sell_ret, signal_window_days := cfg.sell_window_days }
        .ok (setInst { s1 with cash_balance := cash_after, trades := s1.trades ++ [tr] }
              ticker stt2)
      else if buy_signal then
        buy_one_unit cfg ticker dt price buy_ret cfg.buy_window_days s1
      else .ok s1

/-- Sequential pass over the configured tickers at one timestamp. -/
def process_all (cfg : SimConfig) (dt : ℚ) (row : List (String × ℚ)) :
    List String → SimState → Except String SimState
  | [], s => .ok s
  | t :: rest, s =>
    match process_ticker cfg dt row s t with
    | .error e => .error e
    | .ok s2 => process_all cfg dt row rest s2

/-- The interest-carry block at the top of the timestamp loop: after the
first timestamp, if `Δdays > 0`, a positive balance compounds at the cash
yield and a negative balance compounds at the borrow rate; otherwise the
balance is untouched. -/
def apply_carry (cfg : SimConfig) (rpow : ℚ → ℚ → ℚ) (prev : Option ℚ)
    (dt cash : ℚ) : ℚ :=
  match prev with
  | none => cash
  | some p =>
    let days_delta := pymax 0 (dt - p)
    if 0 < days_delta ∧ 0 < cash ∧ 0 < annual_cash_yield cfg then
      cash * rpow (1 + annual_cash_yield cfg) (days_delta / 365)
    else if 0 < days_delta ∧ cash < 0 ∧ 0 < annual_borrow_rate cfg then
      cash * rpow (1 + annual_borrow_rate cfg) (days_delta / 365)
    else cash

/-- One iteration of `for dt, row in price_panel.iterrows():` — carry the
cash balance, process every ticker, then append exactly one equity
snapshot. -/
def step_timestamp (cfg : SimConfig) (rpow : ℚ → ℚ → ℚ) (s : SimState)
    (dt : ℚ) (row : List (String × ℚ)) : Except String SimState :=
  let s1 := { s with
    cash_balance := apply_carry cfg rpow s.prev_dt dt s.cash_balance,
    prev_dt := some dt }
  match process_all cfg dt row cfg.tickers s1 with
  | .error e => .error e
  | .ok s2 =>
    let invested := invested_value s2.instruments
    .ok { s2 with equity_curve := s2.equity_curve ++
      [{ dt := dt, cash_balance := s2.cash_balance, portfolio_value := invested,
         deployed_value := invested, total_wealth := s2.cash_balance + invested }] }

/-- The timestamp loop over the whole panel. -/
def run_loop (cfg : SimConfig) (rpow : ℚ → ℚ → ℚ) :
    List (ℚ × List (String × ℚ)) → SimState → Except String SimState
  | [], s => .ok s
  | (dt, row) :: rest, s =>
    match step_timestamp cfg rpow s dt row with
    | .error e => .error e
    | .ok s2 => run_loop cfg rpow rest s2

/-- The loop state before the first timestamp:
`cash = max(0, starting_cash)`, zeroed ticker states, empty accumulators. -/
def init_state (cfg : SimConfig) : SimState :=
  { cash_balance := pymax 0 cfg.starting_cash,
    instruments := cfg.buy_unit_by_ticker.map (fun p => (p.1, initInstrument)),
    trades := [], equity_curve := [], prev_dt := none }

/-- One row of the final-holdings table. -/
structure FinalRow where
  ticker : String
  buy_unit_usd : ℚ
  last_price : ℚ
  ending_shares : ℚ
  position_value : ℚ
  notional_bought : ℚ
  proceeds_sold : ℚ
  net_flow : ℚ
  buys : ℕ
  sells : ℕ
deriving DecidableEq

/-- The final per-ticker summary row built after the loop. -/
def final_row (cfg : SimConfig) (p : String × InstrumentState) : FinalRow :=
  let last_px := p.2.last_price.getD 0
  { ticker := p.1, buy_unit_usd := unit_usd_of cfg p.1, last_price := last_px,
    ending_shares := p.2.shares, position_value := p.2.shares * last_px,
    notional_bought := p.2.notional_bought, proceeds_sold := p.2.proceeds_sold,
    net_flow := p.2.proceeds_sold - p.2.notional_bought,
    buys := p.2.buy_count, sells := p.2.sell_count }

/-- `trades_df.sort_values(["dt", "ticker", "action"])` ascending; the key
is unique per row (at most one trade per ticker per timestamp), so the
sorted order is fully determined. -/
def trade_le (a b : Trade) : Prop :=
  a.dt < b.dt ∨ (a.dt = b.dt ∧
    (a.ticker < b.ticker ∨ (a.ticker = b.ticker ∧
      (a.action < b.action ∨ a.action = b.action))))

instance : DecidableRel trade_le := fun a b => by
  unfold trade_le; infer_instance

/-- `final_df.sort_values("position_value", ascending=False)`.  The source
uses pandas' default (unstable) quicksort, so the relative order of tied
rows is not a guarantee of the code; no theorem below relies on it. -/
def final_le (a b : FinalRow) : Prop := b.position_value ≤ a.position_value

instance : DecidableRel final_le := fun a b => by
  unfold final_le; infer_instance

/-- The three tables returned by one simulator run. -/
structure SimOutput where
  trades : List Trade
  final_holdings : List FinalRow
  equity_curve : List EquitySnapshot
deriving DecidableEq

/-- `run_threshold_simulation`.  After the loop the trades are sorted
(guarded by `if not trades_df.empty`), and the final-holdings frame is
sorted by `position_value`; with zero configured tickers that frame is an
empty DataFrame with no columns, so pandas raises
`KeyError: 'position_value'`. -/
def run_threshold_simulation (cfg : SimConfig) (rpow : ℚ → ℚ → ℚ)
    (panel : List (ℚ × List (String × ℚ))) : Except String SimOutput :=
  match run_loop cfg rpow panel (init_state cfg) with
  | .error e => .error e
  | .ok s =>
    let finals := s.instruments.map (final_row cfg)
    let ts := if s.trades.isEmpty then s.trades else List.insertionSort trade_le s.trades
    if finals.isEmpty then .error "KeyError: position_value"
    else .ok { trades := ts,
               final_holdings := List.insertionSort final_le finals,
               equity_curve := s.equity_curve }

/-- `round(x, 6)` — fixed six-decimal rounding of each float-grid value.
Python rounds ties to even while `round` on ℚ rounds ties up; the two
differ only at exact ties in the seventh decimal, which no statement
below touches. -/
def round6 (x : ℚ) : ℚ := ((round (x * 1000000) : ℤ) : ℚ) / 1000000

/-- The `while x <= end + 1e-9 and guard < 5000` loop of `build_float_grid`,
with the remaining guard budget as explicit fuel. -/
def build_float_grid_aux (endv step : ℚ) : ℕ → ℚ → List ℚ
  | 0, _ => []
  | fuel + 1, x =>
    if x ≤ endv + 1 / 1000000000 then
      round6 x :: build_float_grid_aux endv step fuel (x + step)
    else []

/-- `build_float_grid(start, end, step)`. -/
def build_float_grid (start endv step : ℚ) : List ℚ :=
  if step ≤ 0 then [start] else build_float_grid_aux endv step 5000 start

/-- `len(range(start, stop, step))` for a positive step:
`max(0, ceil((stop - start) / step))`. -/
def py_range_len (start stop step : ℤ) : ℕ :=
  ((stop - start + step - 1).fdiv step).toNat

/-- `build_int_grid(start, end, step) = list(range(start, end + 1, step))`
for a positive step, and `[start]` otherwise. -/
def build_int_grid (start endv step : ℤ) : List ℤ :=
  if step ≤ 0 then [start]
  else (List.range (py_range_len start (endv + 1) step)).map
    (fun i : ℕ => start + step * (i : ℤ))

/-- One row of the grid-search result table. -/
structure GridResult where
  buy_threshold_pct : ℚ
  buy_window_days : ℕ
  sell_threshold_pct : ℚ
  sell_window_days : ℕ
  deployment_per_trade_usd : Option ℚ
  starting_cash : ℚ
  final_cash : ℚ
  final_invested : ℚ
  final_total_wealth : ℚ
  pnl : ℚ
  total_return_pct : Option ℚ
  max_drawdown_pct : Option ℚ
  trade_count : ℕ
deriving DecidableEq

/-- `running_max m xs` is the elementwise running maximum of `xs` seeded
with `m` (pandas `cummax` of `m :: xs`, tail). -/
def running_max : ℚ → List ℚ → List ℚ
  | _, [] => []
  | m, x :: xs => pymax m x :: running_max (pymax m x) xs

/-- Minimum of a list, seeded. -/
def list_min : ℚ → List ℚ → ℚ
  | m, [] => m
  | m, x :: xs => list_min (pymin m x) xs

/-- `max_drawdown_pct = float(((eq / eq.cummax()) - 1.0).min() * 100.0)`
over a non-empty total-wealth curve, `None` over an empty one.  Division
over ℚ sends a zero divisor to 0 where IEEE floats give ±inf/NaN; a zero
running maximum needs a non-positive total-wealth curve, which no
statement below relies on. -/
def max_drawdown (eqs : List ℚ) : Option ℚ :=
  match eqs with
  | [] => none
  | e :: rest =>
    let rms := pymax e e :: running_max e rest
    let dds := List.zipWith (fun x m => x / m - 1) (e :: rest) rms
    some (list_min (dds.headD 0) (dds.tailD []) * 100)

/-- One lever combination of the sweep. -/
abbrev GridCombo := ℚ × ℕ × ℚ × ℕ × Option ℚ

/-- `deploy_vals = [None] if not deployment_values else [...]` — note that
Python's truthiness makes both `None` and an empty list degrade to the
single no-override combination. -/
def deploy_list (dv : Option (List ℚ)) : List (Option ℚ) :=
  match dv with
  | none => [none]
  | some [] => [none]
  | some l => l.map some

/-- `itertools.product` over the five lever sequences, rightmost fastest. -/
def grid_combos (bth : List ℚ) (bwin : List ℕ) (sth : List ℚ) (swin : List ℕ)
    (deploy : List (Option ℚ)) : List GridCombo :=
  bth.flatMap fun a => bwin.flatMap fun b => sth.flatMap fun c =>
    swin.flatMap fun d => deploy.map fun e => (a, b, c, d, e)

/-- The body of the combination loop of `run_grid_search`: run one
simulation and derive the summary metrics.  The optional progress
callback of the source is a pure side effect and is not modelled. -/
def grid_eval_combo (rpow : ℚ → ℚ → ℚ) (panel : List (ℚ × List (String × ℚ)))
    (buy_units : List (String × ℚ)) (starting_cash yieldp borrowp : ℚ)
    (allow_lev : Bool) (sell_mode : String) (fee : ℚ) (reentry : Bool)
    (c : GridCombo) : Except String GridResult :=
  let (buy_th, buy_win, sell_th, sell_win, deploy) := c
  let local_units := match deploy with
    | none => buy_units
    | some d => buy_units.map (fun p => (p.1, d))
  let cfg : SimConfig :=
    { buy_unit_by_ticker := local_units, starting_cash := starting_cash,
      annual_cash_yield_pct := yieldp, annual_borrow_rate_pct := borrowp,
      allow_leverage := allow_lev, buy_threshold_pct := buy_th,
      buy_window_days := buy_win, sell_threshold_pct := sell_th,
      sell_window_days := sell_win, sell_mode := sell_mode,
      fee_bps := fee, allow_reentry := reentry }
  match run_threshold_simulation cfg rpow panel with
  | .error e => .error e
  | .ok out =>
  let final_cash := match out.equity_curve.getLast? with
    | none => starting_cash
    | some last => last.cash_balance
  let final_invested := match out.equity_curve.getLast? with
    | none => 0
    | some last => last.portfolio_value
  let final_total := match out.equity_curve.getLast? with
    | none => starting_cash
    | some last => last.total_wealth
  let pnl := final_total - starting_cash
  .ok { buy_threshold_pct := buy_th, buy_window_days := buy_win,
        sell_threshold_pct := sell_th, sell_window_days := sell_win,
        deployment_per_trade_usd := deploy, starting_cash := starting_cash,
        final_cash := final_cash, final_invested := final_invested,
        final_total_wealth := final_total, pnl := pnl,
        total_return_pct :=
          if 0 < starting_cash then some (pnl / starting_cash * 100) else none,
        max_drawdown_pct := max_drawdown (out.equity_curve.map (·.total_wealth)),
        trade_count := out.trades.length }

/-- Strict "ranks before" on the optional drawdown key, descending with
`None` (NaN) last. -/
def dd_before : Option ℚ → Option ℚ → Prop
  | some x, some y => y < x
  | some _, none => True
  | none, _ => False

instance : DecidableRel dd_before := fun a b => by
  cases a <;> cases b <;> unfold dd_before <;> infer_instance

/-- Equal rank on the optional drawdown key. -/
def dd_same : Option ℚ → Option ℚ → Prop
  | some x, some y => x = y
  | none, none => True
  | _, _ => False

instance : DecidableRel dd_same := fun a b => by
  cases a <;> cases b <;> unfold dd_same <;> infer_instance

/-- `sort_values(["final_total_wealth", "max_drawdown_pct", "trade_count"],
ascending=[False, False, False], na_position="last")`: a ranks no later
than b. -/
def row_le (a b : GridResult) : Prop :=
  b.final_total_wealth < a.final_total_wealth ∨
  (a.final_total_wealth = b.final_total_wealth ∧
    (dd_before a.max_drawdown_pct b.max_drawdown_pct ∨
     (dd_same a.max_drawdown_pct b.max_drawdown_pct ∧
       b.trade_count ≤ a.trade_count)))

instance : DecidableRel row_le := fun a b => by
  unfold row_le; infer_instance

/-- Sequential evaluation of every combination, aborting on the first
exception, as the source loop does. -/
def grid_eval_all (f : GridCombo → Except String GridResult) :
    List GridCombo → Except String (List GridResult)
  | [] => .ok []
  | c :: rest =>
    match f c with
    | .error e => .error e
    | .ok r =>
      match grid_eval_all f rest with
      | .error e => .error e
      | .ok rs => .ok (r :: rs)

/-- `run_grid_search`: enumerate the Cartesian product of lever values,
evaluate each combination, and sort the result rows by the ranking rule.
An exception inside any single simulation aborts the whole sweep, as in
the source (there is no try/except around the loop). -/
def run_grid_search (rpow : ℚ → ℚ → ℚ) (panel : List (ℚ × List (String × ℚ)))
    (buy_unit_by_ticker : List (String × ℚ))
    (starting_cash annual_cash_yield_pct annual_borrow_rate_pct : ℚ)
    (allow_leverage : Bool)
    (buy_threshold_values : List ℚ) (buy_window_values : List ℕ)
    (sell_threshold_values : List ℚ) (sell_window_values : List ℕ)
    (sell_mode : String) (fee_bps : ℚ) (allow_reentry : Bool)
    (deployment_values : Option (List ℚ)) : Except String (List GridResult) :=
  let combos := grid_combos buy_threshold_values buy_window_values
    sell_threshold_values sell_window_values (deploy_list deployment_values)
  match grid_eval_all (grid_eval_combo rpow panel buy_unit_by_ticker
    starting_cash annual_cash_yield_pct annual_borrow_rate_pct allow_leverage
    sell_mode fee_bps allow_reentry) combos with
  | .error e => .error e
  | .ok rows => .ok (List.insertionSort row_le rows)


/-! ### Structural lemmas about the simulation loop -/

deriving instance DecidableEq for Except

theorem pdiv_ok {a b q : ℚ} (h : pdiv a b = .ok q) : b ≠ 0 ∧ q = a / b := by
  unfold pdiv at h
  split at h
  · exact Except.noConfusion h
  · exact ⟨by assumption, (Except.ok.inj h).symm⟩

theorem buy_one_unit_frame (cfg : SimConfig) (ticker : String) (dt price : ℚ)
    (sr : Option ℚ) (sw : ℕ) (s s' : SimState)
    (h : buy_one_unit cfg ticker dt price sr sw s = .ok s') :
    s'.equity_curve = s.equity_curve ∧ s'.prev_dt = s.prev_dt := by
  simp only [buy_one_unit] at h
  split at h
  · cases h; exact ⟨rfl, rfl⟩
  · split at h
    · cases h; exact ⟨rfl, rfl⟩
    · split at h
      · exact Except.noConfusion h
      · split at h
        · exact Except.noConfusion h
        · cases h; exact ⟨rfl, rfl⟩

theorem process_ticker_frame (cfg : SimConfig) (dt : ℚ)
    (row : List (String × ℚ)) (s : SimState) (ticker : String) (s' : SimState)
    (h : process_ticker cfg dt row s ticker = .ok s') :
    s'.equity_curve = s.equity_curve ∧ s'.prev_dt = s.prev_dt := by
  simp only [process_ticker] at h
  repeat' split at h
  all_goals first
    | exact Except.noConfusion h
    | (cases h; exact ⟨rfl, rfl⟩)
    | (have hf := buy_one_unit_frame _ _ _ _ _ _ _ _ h; exact hf)

theorem process_all_frame (cfg : SimConfig) (dt : ℚ) (row : List (String × ℚ)) :
    ∀ (ts : List String) (s s' : SimState),
      process_all cfg dt row ts s = .ok s' →
      s'.equity_curve = s.equity_curve ∧ s'.prev_dt = s.prev_dt := by
  intro ts
  induction ts with
  | nil => intro s s' h; cases h; exact ⟨rfl, rfl⟩
  | cons t rest ih =>
    intro s s' h
    simp only [process_all] at h
    split at h
    · exact Except.noConfusion h
    · rename_i s2 hs2
      have h1 := process_ticker_frame cfg dt row s t s2 hs2
      have h2 := ih s2 s' h
      exact ⟨h2.1.trans h1.1, h2.2.trans h1.2⟩

/-- The equity snapshot appended at a timestamp with the given cash and
invested value. -/
def mk_snap (dt cash invested : ℚ) : EquitySnapshot :=
  { dt := dt, cash_balance := cash, portfolio_value := invested,
    deployed_value := invested, total_wealth := cash + invested }

theorem step_timestamp_shape (cfg : SimConfig) (rpow : ℚ → ℚ → ℚ) (s : SimState)
    (dt : ℚ) (row : List (String × ℚ)) (s' : SimState)
    (h : step_timestamp cfg rpow s dt row = .ok s') :
    s'.equity_curve = s.equity_curve ++
      [mk_snap dt s'.cash_balance (invested_value s'.instruments)] ∧
    s'.prev_dt = some dt := by
  simp only [step_timestamp] at h
  split at h
  · exact Except.noConfusion h
  · rename_i s2 hs2
    have hf := process_all_frame cfg dt row cfg.tickers _ s2 hs2
    cases h
    constructor
    · simp only [hf.1]; rfl
    · exact hf.2

theorem run_loop_curve (cfg : SimConfig) (rpow : ℚ → ℚ → ℚ) :
    ∀ (panel : List (ℚ × List (String × ℚ))) (s s' : SimState),
      run_loop cfg rpow panel s = .ok s' →
      ∃ snaps, s'.equity_curve = s.equity_curve ++ snaps ∧
        snaps.length = panel.length ∧
        ∀ snap ∈ snaps, snap.total_wealth = snap.cash_balance + snap.portfolio_value := by
  intro panel
  induction panel with
  | nil =>
    intro s s' h; cases h
    exact ⟨[], by simp⟩
  | cons x rest ih =>
    intro s s' h
    obtain ⟨dt, row⟩ := x
    cases hstep : step_timestamp cfg rpow s dt row with
    | error e =>
      simp only [run_loop, hstep] at h
      exact Except.noConfusion h
    | ok s2 =>
      simp only [run_loop, hstep] at h
      have hshape := step_timestamp_shape cfg rpow s dt row s2 hstep
      obtain ⟨snaps, hcurve, hlen, hwf⟩ := ih s2 s' h
      refine ⟨mk_snap dt s2.cash_balance (invested_value s2.instruments) :: snaps,
        ?_, by simp [hlen], ?_⟩
      · rw [hcurve, hshape.1]; simp
      · intro snap hsnap
        rcases List.mem_cons.mp hsnap with h1 | h2
        · subst h1; rfl
        · exact hwf snap h2

theorem run_loop_append (cfg : SimConfig) (rpow : ℚ → ℚ → ℚ)
    (xs ys : List (ℚ × List (String × ℚ))) (s : SimState) :
    run_loop cfg rpow (xs ++ ys) s =
      match run_loop cfg rpow xs s with
      | .error e => .error e
      | .ok s2 => run_loop cfg rpow ys s2 := by
  induction xs generalizing s with
  | nil => rfl
  | cons x rest ih =>
    obtain ⟨dt, row⟩ := x
    simp only [List.cons_append, run_loop]
    cases hstep : step_timestamp cfg rpow s dt row with
    | error e => rfl
    | ok s2 => exact ih s2

theorem run_loop_last (cfg : SimConfig) (rpow : ℚ → ℚ → ℚ) :
    ∀ (panel : List (ℚ × List (String × ℚ))) (s s' : SimState),
      panel ≠ [] → run_loop cfg rpow panel s = .ok s' →
      ∃ snap, s'.equity_curve.getLast? = some snap ∧
        snap.cash_balance = s'.cash_balance ∧
        snap.portfolio_value = invested_value s'.instruments ∧
        snap.total_wealth = s'.cash_balance + invested_value s'.instruments := by
  intro panel
  induction panel with
  | nil => intro s s' hne; exact absurd rfl hne
  | cons x rest ih =>
    intro s s' _ h
    obtain ⟨dt, row⟩ := x
    cases hstep : step_timestamp cfg rpow s dt row with
    | error e =>
      simp only [run_loop, hstep] at h
      exact Except.noConfusion h
    | ok s2 =>
      simp only [run_loop, hstep] at h
      cases rest with
      | nil =>
        have hshape := step_timestamp_shape cfg rpow s dt row s2 hstep
        cases h
        refine ⟨mk_snap dt s'.cash_balance (invested_value s'.instruments),
          ?_, rfl, rfl, rfl⟩
        rw [hshape.1]; simp
      | cons y more =>
        exact ih s2 s' (by simp) h

/-- C1: for every panel and config, a successful run records exactly one
equity snapshot per panel timestamp; every snapshot satisfies
`cash_balance + portfolio_value = total_wealth`; and at each step `k` the
snapshot just appended has `cash_balance` equal to the cash balance of the
loop state at that step and `total_wealth` equal to that cash plus
`Σ shares × last_price` over the instrument states at that step, a ticker
never yet observed contributing last price 0 (`Option.getD _ 0`). -/
theorem C1_equity_snapshot_invariant
    (cfg : SimConfig) (rpow : ℚ → ℚ → ℚ) (panel : List (ℚ × List (String × ℚ)))
    (out : SimOutput) (h : run_threshold_simulation cfg rpow panel = .ok out) :
    out.equity_curve.length = panel.length ∧
    (∀ snap ∈ out.equity_curve,
      snap.total_wealth = snap.cash_balance + snap.portfolio_value) ∧
    ∀ k, k < panel.length →
      ∃ sk, run_loop cfg rpow (List.take (k + 1) panel) (init_state cfg) = .ok sk ∧
        List.take (k + 1) out.equity_curve = sk.equity_curve ∧
        ∃ snap, sk.equity_curve.getLast? = some snap ∧
          snap.cash_balance = sk.cash_balance ∧
          snap.portfolio_value = invested_value sk.instruments ∧
          snap.total_wealth = sk.cash_balance + invested_value sk.instruments := by
  cases hloop : run_loop cfg rpow panel (init_state cfg) with
  | error e =>
    simp only [run_threshold_simulation, hloop] at h
    exact Except.noConfusion h
  | ok sF =>
    simp only [run_threshold_simulation, hloop] at h
    split at h
    · exact Except.noConfusion h
    · cases h
      obtain ⟨snaps, hcurve, hlen, hwf⟩ := run_loop_curve cfg rpow panel _ sF hloop
      have hout : sF.equity_curve = snaps := by simpa [init_state] using hcurve
      refine ⟨by rw [hout, hlen], ?_, ?_⟩
      · intro snap hsnap
        exact hwf snap (by rwa [hout] at hsnap)
      · intro k hk
        have hsplit := run_loop_append cfg rpow (List.take (k + 1) panel)
          (List.drop (k + 1) panel) (init_state cfg)
        rw [List.take_append_drop] at hsplit
        rw [hloop] at hsplit
        cases htake : run_loop cfg rpow (List.take (k + 1) panel) (init_state cfg) with
        | error e => rw [htake] at hsplit; exact Except.noConfusion hsplit
        | ok sk =>
          rw [htake] at hsplit
          -- hsplit : Except.ok sF = run_loop cfg rpow (drop ...) sk
          obtain ⟨snaps2, hcurve2, _, _⟩ :=
            run_loop_curve cfg rpow (List.drop (k + 1) panel) sk sF hsplit.symm
          have hlen1 : sk.equity_curve.length = k + 1 := by
            obtain ⟨snaps1, hcurve1, hlen1, _⟩ :=
              run_loop_curve cfg rpow (List.take (k + 1) panel) _ sk htake
            have : sk.equity_curve = snaps1 := by simpa [init_state] using hcurve1
            rw [this, hlen1, List.length_take]
            omega
          have htakeeq : List.take (k + 1) sF.equity_curve = sk.equity_curve := by
            rw [hcurve2]
            exact List.take_left' hlen1
          have hne : List.take (k + 1) panel ≠ [] := by
            have : (List.take (k + 1) panel).length = k + 1 := by
              rw [List.length_take]; omega
            intro hcontra
            rw [hcontra] at this
            simp at this
          obtain ⟨snap, hlast, hsc, hsp, hst⟩ :=
            run_loop_last cfg rpow (List.take (k + 1) panel) _ sk hne htake
          exact ⟨sk, rfl, htakeeq, snap, hlast, hsc, hsp, hst⟩

/-! ### Concrete fixtures used by witnesses and counterexamples -/

/-- A trivial stand-in for float exponentiation (its values are irrelevant
to every statement below). -/
def rpow_one : ℚ → ℚ → ℚ := fun _ _ => 1

/-- One ticker, ample cash, 1-day windows, thresholds 0 / 5, drop mode. -/
def cfg_demo : SimConfig :=
  { buy_unit_by_ticker := [("A", 1000)], starting_cash := 10000,
    annual_cash_yield_pct := 0, annual_borrow_rate_pct := 0,
    allow_leverage := false, buy_threshold_pct := 0, buy_window_days := 1,
    sell_threshold_pct := 5, sell_window_days := 1, sell_mode := "Sell on drop",
    fee_bps := 0, allow_reentry := true }

/-- Two flat observations: the second triggers a buy at threshold 0. -/
def panel_demo : List (ℚ × List (String × ℚ)) :=
  [(0, [("A", 10)]), (1, [("A", 10)])]

/-- Whether an `Except` computation succeeded. -/
def except_ok {e a : Type} (x : Except e a) : Bool :=
  match x with
  | .ok _ => true
  | .error _ => false

theorem except_ok_error {e a : Type} (v : e) (x : Except e a) (h : x = .error v) :
    except_ok x = false := by
  rw [h]; rfl

theorem C1_equity_snapshot_invariant_witness :
    ∃ out, run_threshold_simulation cfg_demo rpow_one panel_demo = Except.ok out ∧
      out.equity_curve.length = panel_demo.length ∧
      ∀ snap ∈ out.equity_curve,
        snap.total_wealth = snap.cash_balance + snap.portfolio_value := by
  have hok : except_ok (run_threshold_simulation cfg_demo rpow_one panel_demo) = true := by
    with_unfolding_all decide
  cases hrun : run_threshold_simulation cfg_demo rpow_one panel_demo with
  | error e => rw [except_ok_error e _ hrun] at hok; exact Bool.noConfusion hok
  | ok out =>
    obtain ⟨h1, h2, _⟩ :=
      C1_equity_snapshot_invariant cfg_demo rpow_one panel_demo out hrun
    exact ⟨out, rfl, h1, h2⟩

/-- C2: a BUY that actually executes (appends a trade) deducts exactly
`buy_unit_usd` from cash and acquires `(unit / (1 + fee_bps/10000)) / price`
shares at the current price, recording those amounts on the trade; and
whenever leverage is disallowed and cash is below the unit, the buy is a
silent no-op leaving the state (in particular the cash balance)
unchanged. -/
theorem C2_buy_spends_unit_or_skips (cfg : SimConfig) (ticker : String)
    (dt price : ℚ) (sr : Option ℚ) (sw : ℕ) (s s' : SimState) :
    (buy_one_unit cfg ticker dt price sr sw s = .ok s' → s'.trades ≠ s.trades →
      0 < unit_usd_of cfg ticker ∧
      (cfg.allow_leverage = true ∨ unit_usd_of cfg ticker ≤ s.cash_balance) ∧
      fee_buy cfg ≠ 0 ∧ price ≠ 0 ∧
      s'.cash_balance = s.cash_balance - unit_usd_of cfg ticker ∧
      ∃ tr, s'.trades = s.trades ++ [tr] ∧ tr.action = "BUY" ∧
        tr.order_usd = some (unit_usd_of cfg ticker) ∧ tr.price = price ∧
        tr.shares = unit_usd_of cfg ticker / fee_buy cfg / price ∧
        tr.cash_before = s.cash_balance ∧
        tr.cash_after = s.cash_balance - unit_usd_of cfg ticker) ∧
    (cfg.allow_leverage = false → s.cash_balance < unit_usd_of cfg ticker →
      buy_one_unit cfg ticker dt price sr sw s = .ok s) := by
  constructor
  · intro h hne
    simp only [buy_one_unit] at h
    split at h
    · cases h; exact absurd rfl hne
    · split at h
      · cases h; exact absurd rfl hne
      · rename_i hle hlev
        cases hq : pdiv (unit_usd_of cfg ticker) (fee_buy cfg) with
        | error e =>
          simp only [hq] at h
          exact Except.noConfusion h
        | ok q =>
          simp only [hq] at h
          cases hsh : pdiv q price with
          | error e =>
            simp only [hsh] at h
            exact Except.noConfusion h
          | ok shares_bought =>
            simp only [hsh] at h
            cases h
            obtain ⟨hfee, hqv⟩ := pdiv_ok hq
            obtain ⟨hpr, hshv⟩ := pdiv_ok hsh
            refine ⟨lt_of_not_le hle, ?_, hfee, hpr, rfl, ?_⟩
            · by_cases hl : cfg.allow_leverage
              · exact Or.inl hl
              · right
                have hnotlt : ¬ s.cash_balance < unit_usd_of cfg ticker := by
                  intro hc
                  exact hlev (by simp [hl, hc])
                exact not_lt.mp hnotlt
            · exact ⟨_, rfl, rfl, rfl, rfl, by rw [hshv, hqv], rfl, rfl⟩
  · intro hlev hcash
    simp only [buy_one_unit]
    split
    · rfl
    · split
      · rfl
      · rename_i hcond
        exact absurd (by simp [hlev, hcash]) hcond

/-- Scenario C levers: `starting_cash = 100`, `buy_unit_usd = 1000`, no
leverage. -/
def cfg_scenC : SimConfig :=
  { buy_unit_by_ticker := [("A", 1000)], starting_cash := 100,
    annual_cash_yield_pct := 0, annual_borrow_rate_pct := 0,
    allow_leverage := false, buy_threshold_pct := 0, buy_window_days := 1,
    sell_threshold_pct := 5, sell_window_days := 1, sell_mode := "Sell on drop",
    fee_bps := 0, allow_reentry := true }

theorem C2_buy_spends_unit_or_skips_witness :
    (∃ s', buy_one_unit cfg_demo "A" 0 10 none 1 (init_state cfg_demo) = Except.ok s' ∧
      s'.cash_balance = (init_state cfg_demo).cash_balance - unit_usd_of cfg_demo "A") ∧
    buy_one_unit cfg_scenC "A" 0 10 none 1 (init_state cfg_scenC) =
      Except.ok (init_state cfg_scenC) ∧
    (init_state cfg_scenC).cash_balance = 100 := by
  refine ⟨?_, ?_, by with_unfolding_all rfl⟩
  · have hok : except_ok (buy_one_unit cfg_demo "A" 0 10 none 1 (init_state cfg_demo)) = true := by
      with_unfolding_all decide
    cases hval : buy_one_unit cfg_demo "A" 0 10 none 1 (init_state cfg_demo) with
    | error e => rw [except_ok_error e _ hval] at hok; exact Bool.noConfusion hok
    | ok s' =>
      have hlen : (buy_one_unit cfg_demo "A" 0 10 none 1 (init_state cfg_demo)).map
          (fun s => s.trades.length) = .ok 1 := by
        with_unfolding_all decide
      rw [hval] at hlen
      simp only [Except.map] at hlen
      have hne : s'.trades ≠ (init_state cfg_demo).trades := by
        intro hcontra
        have h0 : s'.trades.length = 1 := Except.ok.inj hlen
        rw [hcontra] at h0
        simp [init_state] at h0
      obtain ⟨_, _, _, _, hcash, _⟩ :=
        (C2_buy_spends_unit_or_skips cfg_demo "A" 0 10 none 1
          (init_state cfg_demo) s').1 hval hne
      exact ⟨s', rfl, hcash⟩
  · exact (C2_buy_spends_unit_or_skips cfg_scenC "A" 0 10 none 1 (init_state cfg_scenC)
      (init_state cfg_scenC)).2 rfl (by with_unfolding_all decide)

theorem lookup_map_update (l : List (String × InstrumentState)) (t : String)
    (i : InstrumentState) :
    (l.map (fun p => if p.1 = t then (t, i) else p)).lookup t = some i ∨
    ((l.map (fun p => if p.1 = t then (t, i) else p)).lookup t = none ∧
      l.lookup t = none) := by
  induction l with
  | nil => exact Or.inr ⟨rfl, rfl⟩
  | cons p ps ih =>
    obtain ⟨k, v⟩ := p
    by_cases hp : k = t
    · left
      rw [List.map_cons]
      simp only [if_pos hp]
      simp [List.lookup_cons]
    · have hne : (t == k) = false := beq_false_of_ne (fun hc => hp hc.symm)
      rw [List.map_cons]
      simp only [if_pos, if_neg hp]
      simp only [List.lookup_cons, hne]
      exact ih

theorem getInst_setInst (s : SimState) (t : String) (i : InstrumentState) :
    getInst (setInst s t i) t = i ∨ getInst (setInst s t i) t = initInstrument := by
  unfold getInst setInst
  rcases lookup_map_update s.instruments t i with h | ⟨h, _⟩
  · left; simp [h]
  · right; simp [h]

theorem shares_zero_of_setInst (s : SimState) (t : String) (i : InstrumentState)
    (hz : i.shares = 0) : (getInst (setInst s t i) t).shares = 0 := by
  rcases getInst_setInst s t i with h | h <;> rw [h]
  · exact hz
  · rfl

theorem buy_one_unit_trades (cfg : SimConfig) (ticker : String) (dt price : ℚ)
    (sr : Option ℚ) (sw : ℕ) (s s' : SimState)
    (h : buy_one_unit cfg ticker dt price sr sw s = .ok s') :
    s'.trades = s.trades ∨ ∃ tr, s'.trades = s.trades ++ [tr] ∧ tr.action = "BUY" := by
  simp only [buy_one_unit] at h
  split at h
  · cases h; exact Or.inl rfl
  · split at h
    · cases h; exact Or.inl rfl
    · split at h
      · exact Except.noConfusion h
      · split at h
        · exact Except.noConfusion h
        · cases h; exact Or.inr ⟨_, rfl, rfl⟩

theorem buy_one_unit_append (cfg : SimConfig) (ticker : String) (dt price : ℚ)
    (sr : Option ℚ) (sw : ℕ) (sb sb' : SimState) (tr : Trade)
    (h : buy_one_unit cfg ticker dt price sr sw sb = .ok sb')
    (htr : sb'.trades = sb.trades ++ [tr]) :
    0 < unit_usd_of cfg ticker ∧ fee_buy cfg ≠ 0 ∧ price ≠ 0 ∧
    tr.action = "BUY" ∧
    tr.shares = unit_usd_of cfg ticker / fee_buy cfg / price ∧
    tr.shares_after = (getInst sb ticker).shares + tr.shares := by
  simp only [buy_one_unit] at h
  split at h
  · cases h
    exact absurd htr (by simp)
  · split at h
    · cases h
      exact absurd htr (by simp)
    · rename_i hle _
      cases hq : pdiv (unit_usd_of cfg ticker) (fee_buy cfg) with
      | error e =>
        simp only [hq] at h
        exact Except.noConfusion h
      | ok q =>
        simp only [hq] at h
        cases hsh : pdiv q price with
        | error e =>
          simp only [hsh] at h
          exact Except.noConfusion h
        | ok shares_bought =>
          simp only [hsh] at h
          cases h
          obtain ⟨hfee, hqv⟩ := pdiv_ok hq
          obtain ⟨hpr, hshv⟩ := pdiv_ok hsh
          have htr0 := List.append_cancel_left htr
          cases (List.cons.inj htr0).1
          exact ⟨lt_of_not_le hle, hfee, hpr, rfl, by rw [hshv, hqv], rfl⟩

/-- C3 (amended): at a step where a ticker holds shares and the sell return
is defined, the sell rule is `sell_ret ≤ -|sell_threshold_pct|` in
"Sell on drop" mode and `sell_ret ≥ |sell_threshold_pct|` otherwise; a true
signal liquidates the whole position at `price × (1 - fee_bps/10000)`,
credits the proceeds to cash and leaves `shares_after = 0`, while without a
signal no SELL is recorded; and an executed BUY adds
`(unit / fee_buy) / price` shares, which never decreases the position when
the trade price is positive and `fee_bps ≥ 0` (at a negative price it
does decrease it — the original unconditional claim fails there). -/
theorem C3_sell_liquidates_buy_monotone (cfg : SimConfig) (dt : ℚ)
    (row : List (String × ℚ)) (s : SimState) (ticker : String) (price r : ℚ)
    (br : Option ℚ)
    (hrow : row.lookup ticker = some price)
    (hshares : 0 < (getInst s ticker).shares)
    (hbr : trailing_return ((getInst s ticker).history ++ [price])
      cfg.buy_window_days = .ok br)
    (hsr : trailing_return ((getInst s ticker).history ++ [price])
      cfg.sell_window_days = .ok (some r)) :
    ((if cfg.sell_mode = "Sell on drop" then r ≤ -pyabs cfg.sell_threshold_pct
      else pyabs cfg.sell_threshold_pct ≤ r) →
      ∃ s', process_ticker cfg dt row s ticker = .ok s' ∧
        (getInst s' ticker).shares = 0 ∧
        s'.cash_balance = s.cash_balance +
          (getInst s ticker).shares * price * fee_sell cfg ∧
        ∃ tr, s'.trades = s.trades ++ [tr] ∧ tr.action = "SELL" ∧
          tr.shares = (getInst s ticker).shares ∧ tr.shares_after = 0 ∧
          tr.proceeds_net = some ((getInst s ticker).shares * price * fee_sell cfg) ∧
          tr.cash_after = s.cash_balance +
            (getInst s ticker).shares * price * fee_sell cfg) ∧
    (¬(if cfg.sell_mode = "Sell on drop" then r ≤ -pyabs cfg.sell_threshold_pct
       else pyabs cfg.sell_threshold_pct ≤ r) →
      ∀ s', process_ticker cfg dt row s ticker = .ok s' →
        ∀ tr, tr ∈ s'.trades → tr ∉ s.trades → tr.action = "BUY") ∧
    (∀ (p2 : ℚ) (sr2 : Option ℚ) (sw2 : ℕ) (sb sb' : SimState) (tr : Trade),
      0 < p2 → 0 ≤ cfg.fee_bps →
      buy_one_unit cfg ticker dt p2 sr2 sw2 sb = .ok sb' →
      sb'.trades = sb.trades ++ [tr] →
      tr.shares_after = (getInst sb ticker).shares + tr.shares ∧ 0 ≤ tr.shares) := by
  refine ⟨?_, ?_, ?_⟩
  · intro hsig
    simp only [process_ticker, hrow, hbr, hsr]
    rw [if_neg (not_le.mpr hshares)]
    by_cases hm : cfg.sell_mode = "Sell on drop"
    · rw [hm] at hsig ⊢
      simp only [if_pos rfl,
        decide_eq_true (by simpa using hsig : r ≤ -pyabs cfg.sell_threshold_pct)]
      refine ⟨_, rfl, shares_zero_of_setInst _ _ _ rfl, rfl, _, rfl, rfl, rfl, rfl,
        rfl, rfl⟩
    · rw [if_neg hm] at hsig
      simp only [if_neg hm, decide_eq_true hsig]
      refine ⟨_, rfl, shares_zero_of_setInst _ _ _ rfl, rfl, _, rfl, rfl, rfl, rfl,
        rfl, rfl⟩
  · intro hnsig s' h tr htr hnot
    simp only [process_ticker, hrow, hbr, hsr] at h
    rw [if_neg (not_le.mpr hshares)] at h
    have hsigf : (if cfg.sell_mode = "Sell on drop"
        then decide (r ≤ -pyabs cfg.sell_threshold_pct)
        else decide (pyabs cfg.sell_threshold_pct ≤ r)) = false := by
      by_cases hm : cfg.sell_mode = "Sell on drop"
      · rw [if_pos hm] at hnsig
        rw [if_pos hm]
        exact decide_eq_false hnsig
      · rw [if_neg hm] at hnsig
        rw [if_neg hm]
        exact decide_eq_false hnsig
    rw [hsigf] at h
    simp only [Bool.false_eq_true, if_false] at h
    split at h
    · rcases buy_one_unit_trades _ _ _ _ _ _ _ _ h with heq | ⟨tb, heq, hact⟩
      · rw [heq] at htr
        exact absurd htr hnot
      · rw [heq] at htr
        rcases List.mem_append.mp htr with hin | hin
        · exact absurd hin hnot
        · rw [List.mem_singleton.mp hin]
          exact hact
    · cases h
      exact absurd htr hnot
  · intro p2 sr2 sw2 sb sb' tr hp2 hbps h htr
    obtain ⟨hu, _, _, _, hsh, hsa⟩ := buy_one_unit_append cfg ticker dt p2 sr2 sw2 sb sb' tr h htr
    refine ⟨hsa, ?_⟩
    rw [hsh]
    have hfee : (0:ℚ) < fee_buy cfg := by
      unfold fee_buy
      have h10 : (0:ℚ) ≤ cfg.fee_bps / 10000 := div_nonneg hbps (by norm_num)
      linarith
    exact div_nonneg (div_nonneg (le_of_lt hu) (le_of_lt hfee)) (le_of_lt hp2)

/-- Gain-mode levers with 1-day windows used to reach a pyramiding BUY at a
negative price. -/
def cfg_negpx : SimConfig :=
  { buy_unit_by_ticker := [("A", 1000)], starting_cash := 10000,
    annual_cash_yield_pct := 0, annual_borrow_rate_pct := 0,
    allow_leverage := false, buy_threshold_pct := 0, buy_window_days := 1,
    sell_threshold_pct := 5, sell_window_days := 1, sell_mode := "gain",
    fee_bps := 0, allow_reentry := true }

/-- Price path 1, 1, -1, -1: the first repeat triggers a BUY, the repeated
-1 makes the trailing return 0 again, triggering a pyramiding BUY executed
at price -1. -/
def panel_negpx : List (ℚ × List (String × ℚ)) :=
  [(0, [("A", 1)]), (1, [("A", 1)]), (2, [("A", -1)]), (3, [("A", -1)])]

/-- C3 counterexample: on `panel_negpx` the run records an executed BUY with
a negative share quantity (price -1), so "a BUY never decreases shares" is
false as stated: that trade takes the position from 1000 shares down to
`shares_after = 0`. -/
theorem C3_counterexample :
    (run_threshold_simulation cfg_negpx rpow_one panel_negpx).map
      (fun o => o.trades.any (fun tr => tr.action == "BUY" && decide (tr.shares < 0)))
      = Except.ok true := by
  with_unfolding_all decide

/-- A mid-run state holding 2 shares bought earlier, used to exercise the
sell rule concretely. -/
def inst_sell : InstrumentState :=
  { shares := 2, last_price := some 10, buy_count := 1, sell_count := 0,
    history := [10], notional_bought := 1000, proceeds_sold := 0 }

/-- A mid-run loop state holding the position above. -/
def state_sell : SimState :=
  { cash_balance := 9000, instruments := [("A", inst_sell)],
    trades := [], equity_curve := [], prev_dt := some 0 }

theorem C3_sell_liquidates_buy_monotone_witness :
    ∃ s', process_ticker cfg_demo 1 [("A", 9)] state_sell "A" = .ok s' ∧
      (getInst s' "A").shares = 0 ∧
      s'.cash_balance = state_sell.cash_balance +
        (getInst state_sell "A").shares * 9 * fee_sell cfg_demo := by
  obtain ⟨hsell, _, _⟩ :=
    C3_sell_liquidates_buy_monotone cfg_demo 1 [("A", 9)] state_sell "A" 9 (-10)
      (some (-10)) (by with_unfolding_all rfl) (by with_unfolding_all decide)
      (by with_unfolding_all rfl) (by with_unfolding_all rfl)
  obtain ⟨s', hps, hz, hc, _⟩ := hsell (by with_unfolding_all decide)
  exact ⟨s', hps, hz, hc⟩

/-- C6 (amended): at a step where the ticker holds no shares, a trade is
appended only if (`allow_reentry` OR the ticker has never bought) AND the
buy return is defined and at least `buy_threshold_pct`, and that trade is a
BUY.  The original scenario-B conclusion ("no further buys while the price
keeps rising") fails because the open-position branch pyramids: see the
counterexample. -/
theorem C6_flat_buy_eligibility (cfg : SimConfig) (dt : ℚ)
    (row : List (String × ℚ)) (s : SimState) (ticker : String) (s' : SimState)
    (h : process_ticker cfg dt row s ticker = .ok s')
    (hflat : (getInst s ticker).shares ≤ 0)
    (hne : s'.trades ≠ s.trades) :
    (cfg.allow_reentry = true ∨ (getInst s ticker).buy_count = 0) ∧
    ∃ price r, row.lookup ticker = some price ∧
      trailing_return ((getInst s ticker).history ++ [price])
        cfg.buy_window_days = .ok (some r) ∧
      cfg.buy_threshold_pct ≤ r ∧
      ∃ tr, s'.trades = s.trades ++ [tr] ∧ tr.action = "BUY" := by
  cases hrow : row.lookup ticker with
  | none =>
    simp only [process_ticker, hrow] at h
    cases h
    exact absurd rfl hne
  | some price =>
    simp only [process_ticker, hrow] at h
    cases hbr : trailing_return ((getInst s ticker).history ++ [price])
        cfg.buy_window_days with
    | error e =>
      rw [hbr] at h
      exact Except.noConfusion h
    | ok br =>
      rw [hbr] at h
      cases hsr : trailing_return ((getInst s ticker).history ++ [price])
          cfg.sell_window_days with
      | error e =>
        rw [hsr] at h
        exact Except.noConfusion h
      | ok sr =>
        rw [hsr] at h
        simp only [] at h
        rw [if_pos hflat] at h
        split at h
        · rename_i hcond
          simp only [Bool.and_eq_true, Bool.or_eq_true] at hcond
          obtain ⟨hre, hbs⟩ := hcond
          cases br with
          | none => exact absurd hbs (by simp)
          | some r =>
            have hth : cfg.buy_threshold_pct ≤ r := of_decide_eq_true hbs
            rcases buy_one_unit_trades _ _ _ _ _ _ _ _ h with heq | ⟨tb, heq, hact⟩
            · exact absurd heq hne
            · refine ⟨?_, price, r, rfl, hbr, hth, tb, heq, hact⟩
              rcases hre with h1 | h1
              · exact Or.inl h1
              · exact Or.inr (by simpa using h1)
        · cases h
          exact absurd rfl hne

/-- Scenario B levers: buy threshold 2% over a 3-observation window,
re-entry disabled, drop-mode sell that never fires on a rising path. -/
def cfg_scenB : SimConfig :=
  { buy_unit_by_ticker := [("A", 1000)], starting_cash := 10000,
    annual_cash_yield_pct := 0, annual_borrow_rate_pct := 0,
    allow_leverage := false, buy_threshold_pct := 2, buy_window_days := 3,
    sell_threshold_pct := 5, sell_window_days := 3, sell_mode := "Sell on drop",
    fee_bps := 0, allow_reentry := false }

/-- A rising price path whose 3-day trailing return stays above 2%. -/
def panel_scenB : List (ℚ × List (String × ℚ)) :=
  [(0, [("A", 100)]), (1, [("A", 100)]), (2, [("A", 100)]),
   (3, [("A", 103)]), (4, [("A", 106)])]

/-- C6 counterexample: with `allow_reentry = false` and a price that keeps
satisfying the buy signal, the run records two BUY trades, not exactly
one — the open-position branch pyramids regardless of `allow_reentry`. -/
theorem C6_counterexample :
    (run_threshold_simulation cfg_scenB rpow_one panel_scenB).map
      (fun o => (o.trades.filter (fun tr => tr.action == "BUY")).length) =
      Except.ok 2 := by
  with_unfolding_all decide

/-- A flat (zero-share) ticker state with one prior observation and no
prior buys. -/
def inst_flat : InstrumentState :=
  { shares := 0, last_price := some 10, buy_count := 0, sell_count := 0,
    history := [10], notional_bought := 0, proceeds_sold := 0 }

/-- A loop state around `inst_flat`. -/
def state_flat : SimState :=
  { cash_balance := 10000, instruments := [("A", inst_flat)],
    trades := [], equity_curve := [], prev_dt := some 0 }

theorem C6_flat_buy_eligibility_witness :
    ∃ s', process_ticker cfg_demo 1 [("A", 10)] state_flat "A" = .ok s' ∧
      (cfg_demo.allow_reentry = true ∨ (getInst state_flat "A").buy_count = 0) ∧
      ∃ tr, s'.trades = state_flat.trades ++ [tr] ∧ tr.action = "BUY" := by
  have hok : except_ok (process_ticker cfg_demo 1 [("A", 10)] state_flat "A") = true := by
    with_unfolding_all decide
  cases hval : process_ticker cfg_demo 1 [("A", 10)] state_flat "A" with
  | error e => rw [except_ok_error e _ hval] at hok; exact Bool.noConfusion hok
  | ok s' =>
    have hlen : (process_ticker cfg_demo 1 [("A", 10)] state_flat "A").map
        (fun s => s.trades.length) = .ok 1 := by
      with_unfolding_all decide
    rw [hval] at hlen
    simp only [Except.map] at hlen
    have hne : s'.trades ≠ state_flat.trades := by
      intro hcontra
      have h0 : s'.trades.length = 1 := Except.ok.inj hlen
      rw [hcontra] at h0
      simp [state_flat] at h0
    obtain ⟨helig, _, _, _, _, _, tr, heq, hact⟩ :=
      C6_flat_buy_eligibility cfg_demo 1 [("A", 10)] state_flat "A" s' hval
        (by with_unfolding_all decide) hne
    exact ⟨s', rfl, helig, tr, heq, hact⟩

/-- C10: any `sell_mode` other than the exact string "Sell on drop"
(including arbitrary malformed values) falls through to the sell-on-gain
rule `sell_ret ≥ |sell_threshold_pct|`; the value is never validated and
never raises — when the rule holds the position is liquidated, and when it
does not, no SELL is recorded. -/
theorem C10_unknown_mode_sells_on_gain (cfg : SimConfig) (dt : ℚ)
    (row : List (String × ℚ)) (s : SimState) (ticker : String) (price r : ℚ)
    (br : Option ℚ)
    (hmode : cfg.sell_mode ≠ "Sell on drop")
    (hrow : row.lookup ticker = some price)
    (hshares : 0 < (getInst s ticker).shares)
    (hbr : trailing_return ((getInst s ticker).history ++ [price])
      cfg.buy_window_days = .ok br)
    (hsr : trailing_return ((getInst s ticker).history ++ [price])
      cfg.sell_window_days = .ok (some r)) :
    (pyabs cfg.sell_threshold_pct ≤ r →
      ∃ s', process_ticker cfg dt row s ticker = .ok s' ∧
        (getInst s' ticker).shares = 0 ∧
        ∃ tr, s'.trades = s.trades ++ [tr] ∧ tr.action = "SELL") ∧
    (¬ pyabs cfg.sell_threshold_pct ≤ r →
      ∀ s', process_ticker cfg dt row s ticker = .ok s' →
        ∀ tr, tr ∈ s'.trades → tr ∉ s.trades → tr.action ≠ "SELL") := by
  constructor
  · intro hsig
    simp only [process_ticker, hrow, hbr, hsr]
    rw [if_neg (not_le.mpr hshares)]
    simp only [if_neg hmode, decide_eq_true hsig]
    exact ⟨_, rfl, shares_zero_of_setInst _ _ _ rfl, _, rfl, rfl⟩
  · intro hnsig s' h tr htr hnot
    simp only [process_ticker, hrow, hbr, hsr] at h
    rw [if_neg (not_le.mpr hshares)] at h
    rw [if_neg hmode, decide_eq_false hnsig] at h
    simp only [Bool.false_eq_true, if_false] at h
    split at h
    · rcases buy_one_unit_trades _ _ _ _ _ _ _ _ h with heq | ⟨tb, heq, hact⟩
      · rw [heq] at htr
        exact absurd htr hnot
      · rw [heq] at htr
        rcases List.mem_append.mp htr with hin | hin
        · exact absurd hin hnot
        · rw [List.mem_singleton.mp hin, hact]
          decide
    · cases h
      exact absurd htr hnot

/-- An unrecognised sell-mode string with the gain threshold 5 and 1-day
windows. -/
def cfg_badmode : SimConfig :=
  { buy_unit_by_ticker := [("A", 1000)], starting_cash := 10000,
    annual_cash_yield_pct := 0, annual_borrow_rate_pct := 0,
    allow_leverage := false, buy_threshold_pct := 100, buy_window_days := 1,
    sell_threshold_pct := 5, sell_window_days := 1, sell_mode := "???",
    fee_bps := 0, allow_reentry := true }

theorem C10_unknown_mode_sells_on_gain_witness :
    ∃ s', process_ticker cfg_badmode 1 [("A", 11)] state_sell "A" = .ok s' ∧
      (getInst s' "A").shares = 0 ∧
      ∃ tr, s'.trades = state_sell.trades ++ [tr] ∧ tr.action = "SELL" := by
  obtain ⟨hgain, _⟩ :=
    C10_unknown_mode_sells_on_gain cfg_badmode 1 [("A", 11)] state_sell "A" 11 10
      (some 10) (by with_unfolding_all decide) (by with_unfolding_all rfl)
      (by with_unfolding_all decide) (by with_unfolding_all rfl)
      (by with_unfolding_all rfl)
  exact hgain (by with_unfolding_all decide)

theorem process_all_empty_row (cfg : SimConfig) (dt : ℚ) :
    ∀ (ts : List String) (s : SimState), process_all cfg dt [] ts s = .ok s := by
  intro ts
  induction ts with
  | nil => intro s; rfl
  | cons t rest ih =>
    intro s
    have hpt : process_ticker cfg dt [] s t = .ok s := rfl
    simp only [process_all, hpt]
    exact ih s

/-- C9: with no price observations at a timestamp (so the snapshot exposes
the carried balance), the cash entering the step is compounded exactly as
the carry block prescribes: after the first timestamp, a positive balance
with a positive annual cash yield is multiplied by
`(1 + yield) ** (Δdays/365)`, a negative balance with a positive borrow
rate by `(1 + borrow) ** (Δdays/365)`, and in every other case (including
`Δdays = 0`) the balance is unchanged; the two compounding cases are
mutually exclusive (they require `cash > 0` resp. `cash < 0`), so exactly
one applies; before the first timestamp `prev_dt` is `none` and no carry is
applied. -/
theorem C9_interest_carry (cfg : SimConfig) (rpow : ℚ → ℚ → ℚ)
    (s : SimState) (dt : ℚ) :
    (init_state cfg).prev_dt = none ∧
    ∃ s', step_timestamp cfg rpow s dt [] = .ok s' ∧
      s'.prev_dt = some dt ∧ s'.trades = s.trades ∧
      (s.prev_dt = none → s'.cash_balance = s.cash_balance) ∧
      (∀ p, s.prev_dt = some p →
        (0 < pymax 0 (dt - p) → 0 < s.cash_balance → 0 < annual_cash_yield cfg →
          s'.cash_balance = s.cash_balance *
            rpow (1 + annual_cash_yield cfg) (pymax 0 (dt - p) / 365)) ∧
        (0 < pymax 0 (dt - p) → s.cash_balance < 0 → 0 < annual_borrow_rate cfg →
          s'.cash_balance = s.cash_balance *
            rpow (1 + annual_borrow_rate cfg) (pymax 0 (dt - p) / 365)) ∧
        (¬(0 < pymax 0 (dt - p) ∧ 0 < s.cash_balance ∧ 0 < annual_cash_yield cfg) →
         ¬(0 < pymax 0 (dt - p) ∧ s.cash_balance < 0 ∧ 0 < annual_borrow_rate cfg) →
          s'.cash_balance = s.cash_balance)) := by
  refine ⟨rfl, ?_⟩
  simp only [step_timestamp, process_all_empty_row]
  refine ⟨_, rfl, rfl, rfl, ?_, ?_⟩
  · intro hnone
    show apply_carry cfg rpow s.prev_dt dt s.cash_balance = s.cash_balance
    rw [hnone]
    rfl
  · intro p hp
    refine ⟨?_, ?_, ?_⟩
    · intro hd hc hy
      show apply_carry cfg rpow s.prev_dt dt s.cash_balance = _
      rw [hp]
      simp only [apply_carry]
      rw [if_pos ⟨hd, hc, hy⟩]
    · intro hd hc hb
      show apply_carry cfg rpow s.prev_dt dt s.cash_balance = _
      rw [hp]
      simp only [apply_carry]
      rw [if_neg (fun hcontra => absurd hc (not_lt.mpr (le_of_lt hcontra.2.1))),
        if_pos ⟨hd, hc, hb⟩]
    · intro h1 h2
      show apply_carry cfg rpow s.prev_dt dt s.cash_balance = _
      rw [hp]
      simp only [apply_carry]
      rw [if_neg h1, if_neg h2]

/-- Demo levers with a positive annual cash yield, for the carry case. -/
def cfg_carry : SimConfig :=
  { buy_unit_by_ticker := [("A", 1000)], starting_cash := 10000,
    annual_cash_yield_pct := 73, annual_borrow_rate_pct := 36,
    allow_leverage := false, buy_threshold_pct := 0, buy_window_days := 1,
    sell_threshold_pct := 5, sell_window_days := 1, sell_mode := "Sell on drop",
    fee_bps := 0, allow_reentry := true }

theorem C9_interest_carry_witness :
    (init_state cfg_demo).prev_dt = none ∧
    ∃ s', step_timestamp cfg_carry (fun _ e => 2 + e) state_sell 3 [] = .ok s' ∧
      s'.cash_balance = state_sell.cash_balance *
        ((2:ℚ) + pymax 0 (3 - 0) / 365) := by
  refine ⟨(C9_interest_carry cfg_demo rpow_one state_sell 0).1, ?_⟩
  obtain ⟨-, s', hstep, -, -, -, hcarry⟩ :=
    C9_interest_carry cfg_carry (fun _ e => 2 + e) state_sell 3
  obtain ⟨hyield, -, -⟩ := hcarry 0 rfl
  exact ⟨s', hstep, by
    rw [hyield (by with_unfolding_all decide) (by with_unfolding_all decide)
      (by with_unfolding_all decide)]⟩

theorem lookup_mem {b : Type} {l : List (String × b)} {k : String} {v : b}
    (h : l.lookup k = some v) : (k, v) ∈ l := by
  obtain ⟨l1, l2, rfl, -⟩ := List.lookup_eq_some_iff.mp h
  exact List.mem_append.mpr (Or.inr (List.mem_cons_self _ _))

theorem getD_mem_of_lt {l : List ℚ} {i : ℕ} (h : i < l.length) :
    l.getD i 0 ∈ l := by
  rw [List.getD_eq_getElem?_getD, List.getElem?_eq_getElem h]
  exact List.getElem_mem h

theorem trailing_return_short (hist : List ℚ) (w : ℕ) (h : hist.length ≤ w) :
    trailing_return hist w = .ok none := by
  unfold trailing_return
  rw [if_neg (not_lt.mpr h)]

theorem trailing_return_no_error (hist : List ℚ) (w : ℕ)
    (h : ∀ x ∈ hist, x ≠ 0) : ∃ r, trailing_return hist w = .ok r := by
  unfold trailing_return
  split
  · rename_i hlt
    have hden : hist.getD (hist.length - 1 - w) 0 ≠ 0 :=
      h _ (getD_mem_of_lt (by omega))
    refine ⟨some ((hist.getD (hist.length - 1) 0 / hist.getD (hist.length - 1 - w) 0 - 1) * 100), ?_⟩
    simp only [pdiv, if_neg hden]
    rfl
  · exact ⟨none, rfl⟩

/-- Histories of every tracked instrument contain no zero price. -/
def inst_hist_nonzero (insts : List (String × InstrumentState)) : Prop :=
  ∀ p ∈ insts, ∀ x ∈ p.2.history, x ≠ 0

theorem getInst_hist_nonzero (s : SimState) (t : String)
    (hs : inst_hist_nonzero s.instruments) :
    ∀ x ∈ (getInst s t).history, x ≠ 0 := by
  unfold getInst
  cases hl : s.instruments.lookup t with
  | none => simp [initInstrument]
  | some i =>
    simpa using hs (t, i) (lookup_mem hl)

theorem inst_hist_nonzero_setInst (s : SimState) (t : String)
    (i : InstrumentState) (hs : inst_hist_nonzero s.instruments)
    (hi : ∀ x ∈ i.history, x ≠ 0) :
    inst_hist_nonzero (setInst s t i).instruments := by
  intro p hp
  simp only [setInst] at hp
  obtain ⟨q, hq, hql⟩ := List.mem_map.mp hp
  by_cases h : q.1 = t
  · rw [if_pos h] at hql
    rw [← hql]
    exact hi
  · rw [if_neg h] at hql
    rw [← hql]
    exact hs q hq

theorem setInst_inst_length (s : SimState) (t : String) (i : InstrumentState) :
    (setInst s t i).instruments.length = s.instruments.length := by
  simp [setInst]

theorem buy_one_unit_no_error (cfg : SimConfig) (ticker : String) (dt price : ℚ)
    (sr : Option ℚ) (sw : ℕ) (s : SimState)
    (hfee : fee_buy cfg ≠ 0) (hp : price ≠ 0)
    (hs : inst_hist_nonzero s.instruments) :
    ∃ s', buy_one_unit cfg ticker dt price sr sw s = .ok s' ∧
      inst_hist_nonzero s'.instruments ∧
      s'.instruments.length = s.instruments.length := by
  simp only [buy_one_unit]
  split
  · exact ⟨s, rfl, hs, rfl⟩
  · split
    · exact ⟨s, rfl, hs, rfl⟩
    · simp only [pdiv, if_neg hfee, if_neg hp]
      refine ⟨_, rfl, ?_, setInst_inst_length _ _ _⟩
      exact inst_hist_nonzero_setInst _ _ _ hs
        (getInst_hist_nonzero s ticker hs)

theorem process_ticker_no_error (cfg : SimConfig) (dt : ℚ)
    (row : List (String × ℚ)) (s : SimState) (ticker : String)
    (hrow : ∀ q ∈ row, q.2 ≠ 0) (hfee : fee_buy cfg ≠ 0)
    (hs : inst_hist_nonzero s.instruments) :
    ∃ s', process_ticker cfg dt row s ticker = .ok s' ∧
      inst_hist_nonzero s'.instruments ∧
      s'.instruments.length = s.instruments.length := by
  cases hl : row.lookup ticker with
  | none => exact ⟨s, by simp only [process_ticker, hl], hs, rfl⟩
  | some price =>
    have hp : price ≠ 0 := hrow (ticker, price) (lookup_mem hl)
    have hhist : ∀ x ∈ (getInst s ticker).history ++ [price], x ≠ 0 := by
      intro x hx
      rcases List.mem_append.mp hx with hx | hx
      · exact getInst_hist_nonzero s ticker hs x hx
      · rw [List.mem_singleton.mp hx]; exact hp
    obtain ⟨br, hbr⟩ :=
      trailing_return_no_error ((getInst s ticker).history ++ [price])
        cfg.buy_window_days hhist
    obtain ⟨sr, hsr⟩ :=
      trailing_return_no_error ((getInst s ticker).history ++ [price])
        cfg.sell_window_days hhist
    have hs1 : inst_hist_nonzero
        (setInst s ticker
          { getInst s ticker with
            last_price := some price,
            history := (getInst s ticker).history ++ [price] }).instruments :=
      inst_hist_nonzero_setInst _ _ _ hs hhist
    simp only [process_ticker, hl, hbr, hsr]
    clear hbr hsr
    by_cases hsh0 : (getInst s ticker).shares ≤ 0
    · rw [if_pos hsh0]
      by_cases hbuy : ((cfg.allow_reentry || (getInst s ticker).buy_count == 0) &&
          (match br with
           | some r => decide (cfg.buy_threshold_pct ≤ r)
           | none => false)) = true
      · rw [if_pos hbuy]
        obtain ⟨s', h1, h2, h3⟩ := buy_one_unit_no_error cfg ticker dt price br
          cfg.buy_window_days _ hfee hp hs1
        exact ⟨s', h1, h2, h3.trans (setInst_inst_length _ _ _)⟩
      · rw [if_neg hbuy]
        exact ⟨_, rfl, hs1, setInst_inst_length _ _ _⟩
    · rw [if_neg hsh0]
      by_cases hsig : (match sr with
          | some r =>
            if cfg.sell_mode = "Sell on drop" then decide (r ≤ -pyabs cfg.sell_threshold_pct)
            else decide (pyabs cfg.sell_threshold_pct ≤ r)
          | none => false) = true
      · rw [if_pos hsig]
        refine ⟨_, rfl, ?_, ?_⟩
        · exact inst_hist_nonzero_setInst _ _ _ hs1 hhist
        · exact (setInst_inst_length _ _ _).trans (setInst_inst_length _ _ _)
      · rw [if_neg hsig]
        by_cases hbuy : (match br with
            | some r => decide (cfg.buy_threshold_pct ≤ r)
            | none => false) = true
        · rw [if_pos hbuy]
          obtain ⟨s', h1, h2, h3⟩ := buy_one_unit_no_error cfg ticker dt price br
            cfg.buy_window_days _ hfee hp hs1
          exact ⟨s', h1, h2, h3.trans (setInst_inst_length _ _ _)⟩
        · rw [if_neg hbuy]
          exact ⟨_, rfl, hs1, setInst_inst_length _ _ _⟩

theorem process_all_no_error (cfg : SimConfig) (dt : ℚ)
    (row : List (String × ℚ)) (hrow : ∀ q ∈ row, q.2 ≠ 0)
    (hfee : fee_buy cfg ≠ 0) :
    ∀ (ts : List String) (s : SimState), inst_hist_nonzero s.instruments →
      ∃ s', process_all cfg dt row ts s = .ok s' ∧
        inst_hist_nonzero s'.instruments ∧
        s'.instruments.length = s.instruments.length := by
  intro ts
  induction ts with
  | nil => intro s hs; exact ⟨s, rfl, hs, rfl⟩
  | cons t rest ih =>
    intro s hs
    obtain ⟨s2, h2, hs2, hl2⟩ := process_ticker_no_error cfg dt row s t hrow hfee hs
    obtain ⟨s', h', hs', hl'⟩ := ih s2 hs2
    exact ⟨s', by simp only [process_all, h2]; exact h', hs', by rw [hl', hl2]⟩

theorem run_loop_no_error (cfg : SimConfig) (rpow : ℚ → ℚ → ℚ)
    (hfee : fee_buy cfg ≠ 0) :
    ∀ (panel : List (ℚ × List (String × ℚ)))
      (_hpanel : ∀ pr ∈ panel, ∀ q ∈ pr.2, q.2 ≠ 0)
      (s : SimState), inst_hist_nonzero s.instruments →
      ∃ s', run_loop cfg rpow panel s = .ok s' ∧
        inst_hist_nonzero s'.instruments ∧
        s'.instruments.length = s.instruments.length := by
  intro panel
  induction panel with
  | nil => intro _ s hs; exact ⟨s, rfl, hs, rfl⟩
  | cons x rest ih =>
    intro hpanel s hs
    obtain ⟨dt, row⟩ := x
    obtain ⟨s2, h2, hs2, hl2⟩ := process_all_no_error cfg dt row
      (hpanel (dt, row) (List.mem_cons_self _ _)) hfee cfg.tickers
      { s with cash_balance := apply_carry cfg rpow s.prev_dt dt s.cash_balance,
               prev_dt := some dt } hs
    have hstep : step_timestamp cfg rpow s dt row = .ok
        { s2 with equity_curve := s2.equity_curve ++
          [mk_snap dt s2.cash_balance (invested_value s2.instruments)] } := by
      simp only [step_timestamp, h2]
      rfl
    obtain ⟨s', h', hs', hl'⟩ := ih
      (fun pr hpr => hpanel pr (List.mem_cons_of_mem _ hpr))
      { s2 with equity_curve := s2.equity_curve ++
          [mk_snap dt s2.cash_balance (invested_value s2.instruments)] } hs2
    refine ⟨s', ?_, hs', hl'.trans hl2⟩
    simp only [run_loop, hstep]
    exact h'

/-- C4 (amended): a history not longer than the window yields an undefined
signal (`none`) with no exception; an undefined signal on both windows
triggers neither a buy nor a sell — the step only records the observation
(so `none` is treated distinctly from a zero return, which can trigger
trades); and on a panel with no zero price (and a non-degenerate fee and at
least one ticker) the whole run returns without raising.  The original
claim's divide-by-zero half is false: a zero price at the lookback index
raises `ZeroDivisionError` (see the counterexample). -/
theorem C4_undefined_signal_no_exception (cfg : SimConfig)
    (rpow : ℚ → ℚ → ℚ) (dt : ℚ) (row : List (String × ℚ)) (s : SimState)
    (ticker : String) (price : ℚ) :
    (∀ (hist : List ℚ) (w : ℕ), hist.length ≤ w →
      trailing_return hist w = .ok none) ∧
    (row.lookup ticker = some price →
      ((getInst s ticker).history ++ [price]).length ≤ cfg.buy_window_days →
      ((getInst s ticker).history ++ [price]).length ≤ cfg.sell_window_days →
      process_ticker cfg dt row s ticker =
        .ok (setInst s ticker
          { getInst s ticker with
            last_price := some price,
            history := (getInst s ticker).history ++ [price] })) ∧
    (∀ panel : List (ℚ × List (String × ℚ)),
      (∀ pr ∈ panel, ∀ q ∈ pr.2, q.2 ≠ 0) → fee_buy cfg ≠ 0 →
      cfg.buy_unit_by_ticker ≠ [] →
      ∃ out, run_threshold_simulation cfg rpow panel = .ok out) := by
  refine ⟨trailing_return_short, ?_, ?_⟩
  · intro hrow hbw hsw
    simp only [process_ticker, hrow, trailing_return_short _ _ hbw,
      trailing_return_short _ _ hsw]
    split
    · rw [if_neg (by simp)]
    · rfl
  · intro panel hpanel hfee htick
    have hinit : inst_hist_nonzero (init_state cfg).instruments := by
      intro p hp
      simp only [init_state] at hp
      obtain ⟨q, -, hq⟩ := List.mem_map.mp hp
      rw [← hq]
      simp [initInstrument]
    obtain ⟨sF, hloop, -, hlen⟩ := run_loop_no_error cfg rpow hfee panel hpanel
      (init_state cfg) hinit
    have hne2 : ¬ ((sF.instruments.map (final_row cfg)).isEmpty = true) := by
      intro hcontra
      rw [List.isEmpty_iff] at hcontra
      have h0 : sF.instruments = [] := List.map_eq_nil_iff.mp hcontra
      rw [h0] at hlen
      simp only [init_state, List.length_map, List.length_nil] at hlen
      exact htick (List.eq_nil_of_length_eq_zero hlen.symm)
    refine ⟨SimOutput.mk
      (if sF.trades.isEmpty then sF.trades else List.insertionSort trade_le sF.trades)
      (List.insertionSort final_le (sF.instruments.map (final_row cfg)))
      sF.equity_curve, ?_⟩
    simp only [run_threshold_simulation, hloop]
    rw [if_neg hne2]

/-- C4 counterexample: a zero price at the lookback index makes the
trailing-return division raise `ZeroDivisionError`, and the whole run
propagates it, contradicting "treated as signal undefined, never an
exception". -/
theorem C4_counterexample :
    trailing_return [0, 1] 1 = .error "ZeroDivisionError" ∧
    run_threshold_simulation cfg_demo rpow_one [(0, [("A", 0)]), (1, [("A", 1)])] =
      .error "ZeroDivisionError" := by
  with_unfolding_all decide

/-- Demo levers with 5-observation windows, so early signals stay
undefined. -/
def cfg_short : SimConfig :=
  { buy_unit_by_ticker := [("A", 1000)], starting_cash := 10000,
    annual_cash_yield_pct := 0, annual_borrow_rate_pct := 0,
    allow_leverage := false, buy_threshold_pct := 0, buy_window_days := 5,
    sell_threshold_pct := 5, sell_window_days := 5, sell_mode := "Sell on drop",
    fee_bps := 0, allow_reentry := true }

theorem C4_undefined_signal_no_exception_witness :
    trailing_return [5] 3 = .ok none ∧
    process_ticker cfg_short 0 [("A", 7)] (init_state cfg_short) "A" =
      .ok (setInst (init_state cfg_short) "A"
        { getInst (init_state cfg_short) "A" with
          last_price := some 7,
          history := (getInst (init_state cfg_short) "A").history ++ [7] }) ∧
    ∃ out, run_threshold_simulation cfg_demo rpow_one panel_demo = .ok out := by
  obtain ⟨h1, h2, -⟩ := C4_undefined_signal_no_exception cfg_short rpow_one 0
    [("A", 7)] (init_state cfg_short) "A" 7
  obtain ⟨-, -, h3⟩ := C4_undefined_signal_no_exception cfg_demo rpow_one 0
    [("A", 7)] (init_state cfg_demo) "A" 7
  refine ⟨h1 [5] 3 (by decide), ?_, ?_⟩
  · exact h2 (by with_unfolding_all rfl) (by with_unfolding_all decide)
      (by with_unfolding_all decide)
  · exact h3 panel_demo (by with_unfolding_all decide)
      (by with_unfolding_all decide) (by with_unfolding_all decide)

theorem run_loop_no_tickers (cfg : SimConfig) (rpow : ℚ → ℚ → ℚ)
    (htick : cfg.buy_unit_by_ticker = []) :
    ∀ (panel : List (ℚ × List (String × ℚ))) (s : SimState),
      ∃ s', run_loop cfg rpow panel s = .ok s' ∧
        s'.instruments = s.instruments := by
  intro panel
  induction panel with
  | nil => intro s; exact ⟨s, rfl, rfl⟩
  | cons x rest ih =>
    intro s
    obtain ⟨dt, row⟩ := x
    have htick2 : cfg.tickers = [] := by simp [SimConfig.tickers, htick]
    have hs2 : step_timestamp cfg rpow s dt row = .ok
        { s with
          cash_balance := apply_carry cfg rpow s.prev_dt dt s.cash_balance,
          prev_dt := some dt,
          equity_curve := s.equity_curve ++
            [mk_snap dt (apply_carry cfg rpow s.prev_dt dt s.cash_balance)
              (invested_value s.instruments)] } := by
      simp only [step_timestamp, htick2]
      rfl
    have hi2 : (({ s with
          cash_balance := apply_carry cfg rpow s.prev_dt dt s.cash_balance,
          prev_dt := some dt,
          equity_curve := s.equity_curve ++
            [mk_snap dt (apply_carry cfg rpow s.prev_dt dt s.cash_balance)
              (invested_value s.instruments)] } : SimState)).instruments
        = s.instruments := rfl
    obtain ⟨s', h', hi⟩ := ih _
    exact ⟨s', by simp only [run_loop, hs2]; exact h', hi.trans hi2⟩

/-- C5 (amended): with at least one configured ticker, an empty panel
returns without error, with an empty trade log, an empty equity curve, and
one all-zero holdings row per configured ticker (not an empty holdings
table); with zero configured tickers the engine always raises
(pandas `KeyError` sorting the empty holdings frame by a missing column),
whatever the panel. -/
theorem C5_empty_panel_zero_tickers (cfg : SimConfig) (rpow : ℚ → ℚ → ℚ) :
    (cfg.buy_unit_by_ticker ≠ [] →
      ∃ out, run_threshold_simulation cfg rpow [] = .ok out ∧
        out.trades = [] ∧ out.equity_curve = [] ∧
        out.final_holdings.length = cfg.buy_unit_by_ticker.length) ∧
    (cfg.buy_unit_by_ticker = [] → ∀ panel,
      run_threshold_simulation cfg rpow panel =
        .error "KeyError: position_value") := by
  constructor
  · intro htick
    have hne2 : ¬ (((init_state cfg).instruments.map (final_row cfg)).isEmpty = true) := by
      intro hcontra
      rw [List.isEmpty_iff] at hcontra
      have h0 : (init_state cfg).instruments = [] := List.map_eq_nil_iff.mp hcontra
      simp only [init_state, List.map_eq_nil_iff] at h0
      exact htick h0
    refine ⟨SimOutput.mk []
      (List.insertionSort final_le ((init_state cfg).instruments.map (final_row cfg)))
      [], ?_, rfl, rfl, ?_⟩
    · have hred : run_threshold_simulation cfg rpow [] =
          if ((init_state cfg).instruments.map (final_row cfg)).isEmpty = true
          then Except.error "KeyError: position_value"
          else Except.ok (SimOutput.mk
            (if (init_state cfg).trades.isEmpty then (init_state cfg).trades
             else List.insertionSort trade_le (init_state cfg).trades)
            (List.insertionSort final_le
              ((init_state cfg).instruments.map (final_row cfg)))
            (init_state cfg).equity_curve) := rfl
      rw [hred, if_neg hne2]
      rfl
    · rw [List.length_insertionSort, List.length_map]
      simp [init_state]
  · intro htick panel
    obtain ⟨sF, hloop, hinst⟩ := run_loop_no_tickers cfg rpow htick panel (init_state cfg)
    have hempty : sF.instruments = [] := by
      rw [hinst]
      simp [init_state, htick]
    simp only [run_threshold_simulation, hloop, hempty]
    rfl

/-- A configuration with no tickers at all. -/
def cfg_no_tickers : SimConfig :=
  { buy_unit_by_ticker := [], starting_cash := 10000,
    annual_cash_yield_pct := 0, annual_borrow_rate_pct := 0,
    allow_leverage := false, buy_threshold_pct := 0, buy_window_days := 1,
    sell_threshold_pct := 5, sell_window_days := 1, sell_mode := "Sell on drop",
    fee_bps := 0, allow_reentry := true }

/-- C5 counterexample: with zero tickers the run raises (it does not return
empty outputs), and with an empty panel the final-holdings table is not
empty — it has one all-zero row per configured ticker. -/
theorem C5_counterexample :
    run_threshold_simulation cfg_no_tickers rpow_one [(0, [])] =
      .error "KeyError: position_value" ∧
    (run_threshold_simulation cfg_demo rpow_one []).map
      (fun o => (o.trades.length, o.final_holdings.length, o.equity_curve.length)) =
      .ok (0, 1, 0) := by
  with_unfolding_all decide

theorem C5_empty_panel_zero_tickers_witness :
    (∃ out, run_threshold_simulation cfg_demo rpow_one [] = .ok out ∧
      out.trades = [] ∧ out.equity_curve = [] ∧
      out.final_holdings.length = cfg_demo.buy_unit_by_ticker.length) ∧
    run_threshold_simulation cfg_no_tickers rpow_one [(0, [])] =
      .error "KeyError: position_value" := by
  constructor
  · exact (C5_empty_panel_zero_tickers cfg_demo rpow_one).1
      (by with_unfolding_all decide)
  · exact (C5_empty_panel_zero_tickers cfg_no_tickers rpow_one).2 rfl [(0, [])]

theorem build_float_grid_aux_length (endv step : ℚ) :
    ∀ (fuel : ℕ) (x : ℚ), (build_float_grid_aux endv step fuel x).length ≤ fuel := by
  intro fuel
  induction fuel with
  | zero => intro x; simp [build_float_grid_aux]
  | succ n ih =>
    intro x
    simp only [build_float_grid_aux]
    split
    · simpa using Nat.succ_le_succ (ih (x + step))
    · simp

/-- C8 (amended): a non-positive step degrades both grid builders to the
single-element list `[start]`; the float builder's guard caps its output at
5000 points for every range; and for a positive step with `start ≤ end`,
`build_int_grid` has exactly `floor((end - start) / step) + 1` elements.
The original claim fails in two ways: for `end < start` the integer grid is
empty while the formula can be negative, and no hard bound guards
`build_int_grid` at all (see the counterexample). -/
theorem C8_grid_builder_sizes (s e st : ℚ) (a b c : ℤ) :
    (st ≤ 0 → build_float_grid s e st = [s]) ∧
    (c ≤ 0 → build_int_grid a b c = [a]) ∧
    (∀ s2 e2 st2 : ℚ, (build_float_grid s2 e2 st2).length ≤ 5000) ∧
    (0 < c → a ≤ b →
      ((build_int_grid a b c).length : ℤ) = (b - a).fdiv c + 1) := by
  refine ⟨?_, ?_, ?_, ?_⟩
  · intro h
    simp only [build_float_grid, if_pos h]
  · intro h
    simp only [build_int_grid, if_pos h]
  · intro s2 e2 st2
    simp only [build_float_grid]
    split
    · simp
    · exact build_float_grid_aux_length e2 st2 5000 s2
  · intro hc hab
    rw [build_int_grid, if_neg (not_le.mpr hc)]
    simp only [List.length_map, List.length_range]
    unfold py_range_len
    have hc0 : c ≠ 0 := ne_of_gt hc
    have hkey : (b + 1 - a + c - 1).fdiv c = (b - a).fdiv c + 1 := by
      have h1 : b + 1 - a + c - 1 = (b - a) + 1 * c := by ring
      rw [h1, Int.fdiv_eq_ediv _ (le_of_lt hc), Int.fdiv_eq_ediv _ (le_of_lt hc),
        Int.add_mul_ediv_right _ _ hc0]
    rw [hkey]
    have hnn : 0 ≤ (b - a).fdiv c :=
      Int.fdiv_nonneg (by omega) (le_of_lt hc)
    omega

/-- C8 counterexample: for `end < start` the integer grid is empty while
`floor((end-start)/step) + 1` is negative, so the count formula fails as
stated; and `build_int_grid` has no hard cap — 6001 points exceed the
float builder's 5000-point guard. -/
theorem C8_counterexample :
    (build_int_grid 2 0 1).length = 0 ∧
    ((0:ℤ) - 2).fdiv 1 + 1 = -1 ∧
    5000 < (build_int_grid 0 6000 1).length := by
  refine ⟨by with_unfolding_all decide, by decide, ?_⟩
  rw [build_int_grid, if_neg (by decide)]
  simp only [List.length_map, List.length_range]
  unfold py_range_len
  decide

theorem C8_grid_builder_sizes_witness :
    build_float_grid 1 2 0 = [1] ∧
    build_int_grid 5 9 0 = [5] ∧
    (build_float_grid 0 1 (1/4)).length ≤ 5000 ∧
    ((build_int_grid 0 5 2).length : ℤ) = ((5:ℤ) - 0).fdiv 2 + 1 := by
  obtain ⟨h1, -, h3, h4⟩ := C8_grid_builder_sizes 1 2 0 0 5 2
  obtain ⟨-, h2, -, -⟩ := C8_grid_builder_sizes 1 2 0 5 9 0
  exact ⟨h1 le_rfl, h2 le_rfl, h3 0 1 (1/4), h4 (by decide) (by decide)⟩

theorem dd_rank_total (x y : Option ℚ) :
    dd_before x y ∨ dd_same x y ∨ dd_before y x := by
  cases x with
  | none =>
    cases y with
    | none => exact Or.inr (Or.inl trivial)
    | some b => exact Or.inr (Or.inr trivial)
  | some a =>
    cases y with
    | none => exact Or.inl trivial
    | some b =>
      rcases lt_trichotomy a b with h | h | h
      · exact Or.inr (Or.inr h)
      · exact Or.inr (Or.inl h)
      · exact Or.inl h

theorem dd_same_symm {x y : Option ℚ} (h : dd_same x y) : dd_same y x := by
  cases x <;> cases y <;> simp_all [dd_same]

theorem dd_before_trans {x y z : Option ℚ}
    (h1 : dd_before x y) (h2 : dd_before y z) : dd_before x z := by
  cases x <;> cases y <;> cases z <;> simp_all [dd_before]
  exact h2.trans h1

theorem dd_before_same_trans {x y z : Option ℚ}
    (h1 : dd_before x y) (h2 : dd_same y z) : dd_before x z := by
  cases x <;> cases y <;> cases z <;> simp_all [dd_before, dd_same]

theorem dd_same_before_trans {x y z : Option ℚ}
    (h1 : dd_same x y) (h2 : dd_before y z) : dd_before x z := by
  cases x <;> cases y <;> cases z <;> simp_all [dd_before, dd_same]

theorem dd_same_trans {x y z : Option ℚ}
    (h1 : dd_same x y) (h2 : dd_same y z) : dd_same x z := by
  cases x <;> cases y <;> cases z <;> simp_all [dd_same]

instance : IsTotal GridResult row_le := by
  constructor
  intro a b
  unfold row_le
  rcases lt_trichotomy a.final_total_wealth b.final_total_wealth with h | h | h
  · exact Or.inr (Or.inl h)
  · rcases dd_rank_total a.max_drawdown_pct b.max_drawdown_pct with hd | hd | hd
    · exact Or.inl (Or.inr ⟨h, Or.inl hd⟩)
    · rcases Nat.le_total b.trade_count a.trade_count with ht | ht
      · exact Or.inl (Or.inr ⟨h, Or.inr ⟨hd, ht⟩⟩)
      · exact Or.inr (Or.inr ⟨h.symm, Or.inr ⟨dd_same_symm hd, ht⟩⟩)
    · exact Or.inr (Or.inr ⟨h.symm, Or.inl hd⟩)
  · exact Or.inl (Or.inl h)

instance : IsTrans GridResult row_le := by
  constructor
  intro a b c hab hbc
  unfold row_le at hab hbc ⊢
  rcases hab with h1 | ⟨e1, h1⟩
  · rcases hbc with h2 | ⟨e2, h2⟩
    · exact Or.inl (h2.trans h1)
    · exact Or.inl (e2 ▸ h1)
  · rcases hbc with h2 | ⟨e2, h2⟩
    · exact Or.inl (e1 ▸ h2)
    · refine Or.inr ⟨e1.trans e2, ?_⟩
      rcases h1 with hd1 | ⟨hs1, ht1⟩
      · rcases h2 with hd2 | ⟨hs2, ht2⟩
        · exact Or.inl (dd_before_trans hd1 hd2)
        · exact Or.inl (dd_before_same_trans hd1 hs2)
      · rcases h2 with hd2 | ⟨hs2, ht2⟩
        · exact Or.inl (dd_same_before_trans hs1 hd2)
        · exact Or.inr ⟨dd_same_trans hs1 hs2, ht2.trans ht1⟩

theorem grid_eval_all_length (f : GridCombo → Except String GridResult) :
    ∀ (cs : List GridCombo) (rows : List GridResult),
      grid_eval_all f cs = .ok rows → rows.length = cs.length := by
  intro cs
  induction cs with
  | nil => intro rows h; cases h; rfl
  | cons c rest ih =>
    intro rows h
    simp only [grid_eval_all] at h
    split at h
    · exact Except.noConfusion h
    · split at h
      · exact Except.noConfusion h
      · rename_i r hr rs hrs
        cases h
        simp [ih rs hrs]

theorem length_flatMap_const {A B : Type} (l : List A) (f : A → List B) (n : ℕ)
    (h : ∀ x ∈ l, (f x).length = n) : (l.flatMap f).length = l.length * n := by
  induction l with
  | nil => simp
  | cons a as ih =>
    simp only [List.flatMap_cons, List.length_append, List.length_cons]
    rw [h a (List.mem_cons_self _ _), ih (fun x hx => h x (List.mem_cons_of_mem _ hx))]
    ring

theorem grid_combos_length (bth : List ℚ) (bwin : List ℕ) (sth : List ℚ)
    (swin : List ℕ) (deploy : List (Option ℚ)) :
    (grid_combos bth bwin sth swin deploy).length =
      bth.length * (bwin.length * (sth.length * (swin.length * deploy.length))) := by
  have h4 : ∀ (a : ℚ) (b : ℕ) (c : ℚ) (d : ℕ),
      (deploy.map (fun e => ((a, b, c, d, e) : GridCombo))).length = deploy.length :=
    fun _ _ _ _ => List.length_map _ _
  have h3 : ∀ (a : ℚ) (b : ℕ) (c : ℚ),
      ((swin.flatMap fun d => deploy.map fun e => ((a, b, c, d, e) : GridCombo))).length
        = swin.length * deploy.length :=
    fun a b c => length_flatMap_const _ _ _ (fun d _ => h4 a b c d)
  have h2 : ∀ (a : ℚ) (b : ℕ),
      ((sth.flatMap fun c => swin.flatMap fun d =>
        deploy.map fun e => ((a, b, c, d, e) : GridCombo))).length
        = sth.length * (swin.length * deploy.length) :=
    fun a b => length_flatMap_const _ _ _ (fun c _ => h3 a b c)
  have h1 : ∀ (a : ℚ),
      ((bwin.flatMap fun b => sth.flatMap fun c => swin.flatMap fun d =>
        deploy.map fun e => ((a, b, c, d, e) : GridCombo))).length
        = bwin.length * (sth.length * (swin.length * deploy.length)) :=
    fun a => length_flatMap_const _ _ _ (fun b _ => h2 a b)
  exact length_flatMap_const _ _ _ (fun a _ => h1 a)

/-- C7: a successful grid search returns exactly one result row per element
of the Cartesian product of the lever candidate lists (so 3×3×3×3 levers
with no deployment sweep give 81 rows), and the returned rows are pairwise
ordered by the ranking rule: `final_total_wealth` descending, then
`max_drawdown_pct` descending with undefined (NaN) drawdowns last, then
`trade_count` descending. -/
theorem C7_grid_search_rows (rpow : ℚ → ℚ → ℚ)
    (panel : List (ℚ × List (String × ℚ))) (buy_units : List (String × ℚ))
    (sc yp bp : ℚ) (lev : Bool) (bth : List ℚ) (bwin : List ℕ) (sth : List ℚ)
    (swin : List ℕ) (mode : String) (fee : ℚ) (re : Bool)
    (dv : Option (List ℚ)) (rows : List GridResult)
    (h : run_grid_search rpow panel buy_units sc yp bp lev bth bwin sth swin
      mode fee re dv = .ok rows) :
    rows.length = bth.length * (bwin.length * (sth.length *
      (swin.length * (deploy_list dv).length))) ∧
    List.Pairwise row_le rows := by
  simp only [run_grid_search] at h
  split at h
  · exact Except.noConfusion h
  · rename_i rows0 hrows0
    cases h
    constructor
    · rw [List.length_insertionSort, grid_eval_all_length _ _ _ hrows0]
      exact grid_combos_length bth bwin sth swin (deploy_list dv)
    · exact List.sorted_insertionSort row_le rows0

theorem C7_grid_search_rows_witness :
    ∃ rows, run_grid_search rpow_one [] [("A", 1000)] 10000 0 0 false
      [1, 2, 3] [1, 2, 3] [1, 2, 3] [1, 2, 3] "Sell on drop" 0 true none =
        .ok rows ∧
      rows.length = 81 ∧ List.Pairwise row_le rows := by
  have hok : except_ok (run_grid_search rpow_one [] [("A", 1000)] 10000 0 0 false
      [1, 2, 3] [1, 2, 3] [1, 2, 3] [1, 2, 3] "Sell on drop" 0 true none) = true := by
    with_unfolding_all decide
  cases hval : run_grid_search rpow_one [] [("A", 1000)] 10000 0 0 false
      [1, 2, 3] [1, 2, 3] [1, 2, 3] [1, 2, 3] "Sell on drop" 0 true none with
  | error e => rw [except_ok_error e _ hval] at hok; exact Bool.noConfusion hok
  | ok rows =>
    obtain ⟨hlen, hsort⟩ := C7_grid_search_rows rpow_one [] [("A", 1000)] 10000 0 0
      false [1, 2, 3] [1, 2, 3] [1, 2, 3] [1, 2, 3] "Sell on drop" 0 true none
      rows hval
    refine ⟨rows, rfl, ?_, hsort⟩
    rw [hlen]
    with_unfolding_all decide
